import Mathlib

/-!
Shallow embedding of the pairing/relay coordination server
(`coordination-server/src/main.py`) and proofs about its state invariants,
pairing engine, relay router, latency bookkeeping and lifecycle handlers.

Modelling conventions:
* Python `dict` registries and JSON objects are association lists
  `List (String × _)`; Python `set`s of ids are `List String` (the
  operations below keep them duplicate-free).
* Object references (`client.paired_with` holding another `Client` object)
  are modelled by the referenced client's id; the registry is the single
  point of truth, as in the source where every live client object is
  reachable from the `clients` dict.
* Wall-clock values (`time.time() * 1000`, `datetime.now()`) are abstract
  rational timestamps supplied by the caller of each operation.
* `await ws.send_json(...)` / `send_bytes` / `send_str` are modelled by
  appending the message to an `outbox` trace, keyed by the receiving
  client's id; a send happens only when the target socket is open, which
  mirrors the `if not client.ws.closed` guards and the exception handlers
  around the sends.  `asyncio.create_task(notify...)` notifications are
  modelled as synchronous appends, which matches the sequencing visible to
  any observer of the single-threaded event loop.
-/

/-- A JSON value, as produced by `json.loads` on an inbound text frame.
Numbers are modelled as rationals. -/
inductive JValue where
  | null : JValue
  | bool (b : Bool) : JValue
  | num (q : ℚ) : JValue
  | str (s : String) : JValue
  | arr (xs : List JValue) : JValue
  | obj (fields : List (String × JValue)) : JValue

/-- Key lookup in an association list (first matching key wins, as in a
Python `dict`, whose keys are unique). -/
def alookup {α : Type} : List (String × α) → String → Option α
  | [], _ => none
  | (k, v) :: rest, key => if k = key then some v else alookup rest key

/-- Pointwise update of the value stored under a key (models mutating the
object held in a Python dict / mutating the object a reference points to;
dict keys are unique). -/
def aupdate {α : Type} : List (String × α) → String → (α → α) → List (String × α)
  | [], _, _ => []
  | (k, v) :: rest, key, f =>
    if k = key then (k, f v) :: aupdate rest key f else (k, v) :: aupdate rest key f

/-- Key removal (models `del d[key]`). -/
def aerase {α : Type} : List (String × α) → String → List (String × α)
  | [], _ => []
  | (k, v) :: rest, key =>
    if k = key then aerase rest key else (k, v) :: aerase rest key

/-- `d[key] = v` on a Python dict: overwrite in place when the key exists,
append otherwise.  Used for the `{**data, "relayed": True, ...}` merge. -/
def aset {α : Type} : List (String × α) → String → α → List (String × α)
  | [], key, v => [(key, v)]
  | (k, w) :: rest, key, v =>
    if k = key then (k, v) :: rest else (k, w) :: aset rest key v

/-- `set.add`: insert an id if not already present. -/
def setAdd (l : List String) (x : String) : List String :=
  if x ∈ l then l else l ++ [x]

/-- Client types (main.py lines 21-22). -/
def CLIENT_TYPE_ROBOT : String := "robot"

def CLIENT_TYPE_SPECTACLES : String := "spectacles"

/-- Client connection statuses (main.py lines 25-27). -/
def STATUS_WAITING : String := "waiting"

def STATUS_PAIRED : String := "paired"

def STATUS_DISCONNECTED : String := "disconnected"

/-- Content of one entry of `Client.message_log`: a parsed JSON payload or a
binary payload (bytes are abstracted as a list of byte values). -/
inductive LogContent where
  | json (v : JValue) : LogContent
  | bytes (data : List Nat) : LogContent

/-- One record of `Client.message_log` (main.py lines 62-69). -/
structure LogRecord where
  timestamp : ℚ
  direction : String
  content : LogContent
  kind : String

/-- The `Client` object (main.py lines 31-45).  `ctype` is the source's
`self.type` (a Lean keyword), `ws_open` models `not self.ws.closed`, and
`paired_with` holds the peer's id instead of an object reference. -/
structure Client where
  id : String
  ws_open : Bool
  ctype : String
  remote_addr : String
  connected_at : ℚ
  paired_with : Option String
  messages_received : Nat
  messages_sent : Nat
  last_ping_time : ℚ
  last_pong_time : ℚ
  latency_history : List ℚ
  message_log : List LogRecord
  max_log_size : Nat

/-- A message sent to a client's websocket.  Each constructor mirrors one
`send_json` / `send_bytes` / `send_str` call site in the source; the
`status_update` fields are the JSON fields `status`, `message`, `client_id`
and `paired_with.{id,type}` (absent fields are `none`). -/
inductive OutMsg where
  | status_update (status : String) (message : String) (client_id : Option String)
      (paired_with_id : Option String) (paired_with_ctype : Option String) : OutMsg
  | ping (timestamp : ℚ) : OutMsg
  | relayed_json (v : JValue) : OutMsg
  | relayed_bytes (data : List Nat) : OutMsg

/-- The module-level server state (main.py lines 88-90), plus the trace of
sent messages. -/
structure ServerState where
  clients : List (String × Client)
  unpaired_robots : List String
  unpaired_spectacles : List String
  outbox : List (String × OutMsg)

/-- The empty initial state. -/
def ServerState.initial : ServerState :=
  { clients := [], unpaired_robots := [], unpaired_spectacles := [], outbox := [] }

/-- `Client.__init__` (main.py lines 32-45); the `secrets.token_hex(8)` id is
supplied by the caller, `datetime.now()` is the abstract timestamp `now`. -/
def Client.init (fresh : String) (client_type : String) (addr : String) (now : ℚ) :
    Client :=
  { id := fresh, ws_open := true, ctype := client_type, remote_addr := addr,
    connected_at := now, paired_with := none, messages_received := 0,
    messages_sent := 0, last_ping_time := 0, last_pong_time := 0,
    latency_history := [], message_log := [], max_log_size := 100 }

/-- `Client.is_paired` (main.py lines 47-49). -/
def Client.is_paired (c : Client) : Bool :=
  c.paired_with.isSome

/-- `Client.avg_latency` (main.py lines 51-55): `0` on an empty history,
otherwise the arithmetic mean. -/
def Client.avg_latency (c : Client) : ℚ :=
  if c.latency_history = [] then 0
  else c.latency_history.sum / (c.latency_history.length : ℚ)

/-- The `avg_latency` entry of `Client.to_dict` (main.py line 83): the
string `"N/A"` when `latency_history` is empty, otherwise the formatted
mean.  `noData` stands for the literal `"N/A"`; `mean q` stands for the
decimal rendering of the mean `q`. -/
inductive LatencyReport where
  | noData : LatencyReport
  | mean (q : ℚ) : LatencyReport

/-- The reported average latency of `Client.to_dict` (main.py line 83). -/
def Client.avg_latency_report (c : Client) : LatencyReport :=
  if c.latency_history = [] then LatencyReport.noData
  else LatencyReport.mean c.avg_latency

/-- `Client.log_message` body (main.py lines 57-69): evict the oldest record
once the log is at capacity, then append. -/
def pushLog (log : List LogRecord) (max_log_size : Nat) (rec : LogRecord) :
    List LogRecord :=
  (if max_log_size ≤ log.length then log.tail else log) ++ [rec]

/-- `Client.log_message` (main.py lines 57-69). -/
def Client.log_message (c : Client) (content : LogContent) (direction : String)
    (kind : String) (now : ℚ) : Client :=
  let entry : LogRecord :=
    { timestamp := now, direction := direction, content := content, kind := kind }
  { c with message_log := pushLog c.message_log c.max_log_size entry }

/-- `notify_client_paired` (main.py lines 235-247): a `paired` status update
naming the peer, sent only when the socket is open. -/
def notify_client_paired (s : ServerState) (client paired : Client) : ServerState :=
  if client.ws_open then
    let msg := OutMsg.status_update STATUS_PAIRED
      ("You are now paired with a " ++ paired.ctype ++ " client")
      none (some paired.id) (some paired.ctype)
    { s with outbox := s.outbox ++ [(client.id, msg)] }
  else s

/-- `notify_client_unpaired` (main.py lines 251-263): a `waiting` status
update carrying the reason, sent only when the socket is open. -/
def notify_client_unpaired (s : ServerState) (client : Client) (reason : String) :
    ServerState :=
  if client.ws_open then
    let msg := OutMsg.status_update STATUS_WAITING reason (some client.id) none none
    { s with outbox := s.outbox ++ [(client.id, msg)] }
  else s

/-- The two symmetric `paired_with` assignments of a pairing operation
(main.py lines 216-217 and 150-151). -/
def pairUpdate (cs : List (String × Client)) (a b : String) :
    List (String × Client) :=
  aupdate (aupdate cs a (fun c => { c with paired_with := some b })) b
    (fun c => { c with paired_with := some a })

/-- The two symmetric `paired_with` clears of an unpair operation
(main.py lines 274-275). -/
def unpairUpdate (cs : List (String × Client)) (a b : String) :
    List (String × Client) :=
  aupdate (aupdate cs a (fun c => { c with paired_with := none })) b
    (fun c => { c with paired_with := none })

/-- Body of `try_pair_clients` (main.py lines 208-229) for a chosen robot id
and spectacles id: if both resolve in the registry, set `paired_with`
symmetrically, remove both ids from the unpaired sets, and notify both. -/
def pairSelected (s : ServerState) (robot_id spectacles_id : String) :
    ServerState × Bool :=
  match alookup s.clients robot_id, alookup s.clients spectacles_id with
  | some robot_client, some spectacles_client =>
    let cs := pairUpdate s.clients robot_id spectacles_id
    let s1 : ServerState :=
      { s with
        clients := cs,
        unpaired_robots := s.unpaired_robots.erase robot_id,
        unpaired_spectacles := s.unpaired_spectacles.erase spectacles_id }
    let s2 := notify_client_paired s1 robot_client spectacles_client
    let s3 := notify_client_paired s2 spectacles_client robot_client
    (s3, true)
  | _, _ => (s, false)

/-- `try_pair_clients` (main.py lines 205-231).  The source draws
`next(iter(...))` from each Python set; the model picks the heads of the
lists (the choice is implementation-defined in the source). -/
def try_pair_clients (s : ServerState) : ServerState × Bool :=
  match s.unpaired_robots.head?, s.unpaired_spectacles.head? with
  | some robot_id, some spectacles_id => pairSelected s robot_id spectacles_id
  | _, _ => (s, false)

/-- Outcome of `force_pair_handler`: `not_found` is the `HTTPNotFound`
raised for an unknown URL client id, `invalid_pairing` the
`HTTPBadRequest("Invalid pairing client selected")`, and the two
`already_paired` results the `HTTPBadRequest`s of lines 133 and 136. -/
inductive ForcePairResult where
  | not_found : ForcePairResult
  | invalid_pairing : ForcePairResult
  | client_already_paired : ForcePairResult
  | target_already_paired : ForcePairResult
  | ok : ForcePairResult
deriving DecidableEq

/-- `force_pair_handler` (main.py lines 116-160).  `pair_with` is the posted
`pair_with` form field (`none` when absent; the empty string is falsy in
Python, hence also rejected as `invalid_pairing`). -/
def force_pair_handler (s : ServerState) (client_id : String)
    (pair_with : Option String) : ServerState × ForcePairResult :=
  match alookup s.clients client_id with
  | none => (s, ForcePairResult.not_found)
  | some client =>
    match pair_with with
    | none => (s, ForcePairResult.invalid_pairing)
    | some pair_with_id =>
      if pair_with_id = "" then (s, ForcePairResult.invalid_pairing)
      else
        match alookup s.clients pair_with_id with
        | none => (s, ForcePairResult.invalid_pairing)
        | some pair_with_client =>
          if client.is_paired then (s, ForcePairResult.client_already_paired)
          else if pair_with_client.is_paired then
            (s, ForcePairResult.target_already_paired)
          else
            let s1 :=
              if client.ctype = CLIENT_TYPE_ROBOT then
                { s with unpaired_robots := s.unpaired_robots.erase client_id }
              else
                { s with unpaired_spectacles := s.unpaired_spectacles.erase client_id }
            let s2 :=
              if pair_with_client.ctype = CLIENT_TYPE_ROBOT then
                { s1 with unpaired_robots := s1.unpaired_robots.erase pair_with_id }
              else
                { s1 with unpaired_spectacles := s1.unpaired_spectacles.erase pair_with_id }
            let cs := pairUpdate s2.clients client_id pair_with_id
            let s3 := { s2 with clients := cs }
            let s4 := notify_client_paired s3 client pair_with_client
            let s5 := notify_client_paired s4 pair_with_client client
            (s5, ForcePairResult.ok)

/-- `unpair_clients` (main.py lines 267-292), by ids: clear `paired_with` on
both, re-insert both ids into the unpaired set of their kind, notify both.
The source receives the two live objects; a dangling id (impossible at the
call sites) leaves the state unchanged. -/
def unpair_clients (s : ServerState) (id1 id2 : String) (reason : String) :
    ServerState :=
  match alookup s.clients id1, alookup s.clients id2 with
  | some client1, some client2 =>
    let cs := unpairUpdate s.clients id1 id2
    let s1 := { s with clients := cs }
    let s2 :=
      if client1.ctype = CLIENT_TYPE_ROBOT then
        { s1 with unpaired_robots := setAdd s1.unpaired_robots client1.id }
      else
        { s1 with unpaired_spectacles := setAdd s1.unpaired_spectacles client1.id }
    let s3 :=
      if client2.ctype = CLIENT_TYPE_ROBOT then
        { s2 with unpaired_robots := setAdd s2.unpaired_robots client2.id }
      else
        { s2 with unpaired_spectacles := setAdd s2.unpaired_spectacles client2.id }
    let s4 := notify_client_unpaired s3 client1 reason
    notify_client_unpaired s4 client2 reason
  | _, _ => s

/-- `remove_client` (main.py lines 296-322): drop the id from its unpaired
set, unpair and notify the peer when paired, then delete the registry
entry.  A second call with the same id is a no-op. -/
def remove_client (s : ServerState) (client_id : String) : ServerState :=
  match alookup s.clients client_id with
  | none => s
  | some client =>
    let s1 :=
      if client.ctype = CLIENT_TYPE_ROBOT ∧ client_id ∈ s.unpaired_robots then
        { s with unpaired_robots := s.unpaired_robots.erase client_id }
      else if client.ctype = CLIENT_TYPE_SPECTACLES ∧ client_id ∈ s.unpaired_spectacles then
        { s with unpaired_spectacles := s.unpaired_spectacles.erase client_id }
      else s
    let s2 :=
      match client.paired_with with
      | some pid =>
        match alookup s1.clients pid with
        | some paired_client =>
          let cs := aupdate s1.clients pid (fun c => { c with paired_with := none })
          let s2a := { s1 with clients := cs }
          let s2b :=
            if paired_client.ctype = CLIENT_TYPE_ROBOT then
              { s2a with unpaired_robots := setAdd s2a.unpaired_robots paired_client.id }
            else
              { s2a with unpaired_spectacles := setAdd s2a.unpaired_spectacles paired_client.id }
          notify_client_unpaired s2b paired_client "The paired client has disconnected"
        | none => s1
      | none => s1
    { s2 with clients := aerase s2.clients client_id }

/-- Outcome of `close_connection_handler`. -/
inductive CloseResult where
  | not_found : CloseResult
  | ok : CloseResult
deriving DecidableEq

/-- `close_connection_handler` (main.py lines 537-569): notify the peer that
the client is being closed, send a `disconnected` status to the client,
close its socket, then `remove_client` it. -/
def close_connection_handler (s : ServerState) (client_id : String) :
    ServerState × CloseResult :=
  match alookup s.clients client_id with
  | none => (s, CloseResult.not_found)
  | some client =>
    let s1 :=
      match client.paired_with with
      | some pid =>
        match alookup s.clients pid with
        | some paired_client =>
          notify_client_unpaired s paired_client "The paired client was closed by the server"
        | none => s
      | none => s
    let s2 :=
      if client.ws_open then
        let msg := OutMsg.status_update STATUS_DISCONNECTED
          "Connection closed by server" none none none
        { s1 with outbox := s1.outbox ++ [(client.id, msg)] }
      else s1
    let cs := aupdate s2.clients client_id (fun c => { c with ws_open := false })
    let s3 := { s2 with clients := cs }
    (remove_client s3 client_id, CloseResult.ok)

/-- Registration part of `websocket_handler` (main.py lines 380-402): create
the `Client`, insert it into the registry, add its id to the unpaired set of
its kind, and send the initial `waiting` status update. -/
def registerClient (s : ServerState) (client_type addr fresh : String) (now : ℚ) :
    ServerState :=
  let client := Client.init fresh client_type addr now
  let s1 := { s with clients := s.clients ++ [(fresh, client)] }
  let s2 :=
    if client_type = CLIENT_TYPE_ROBOT then
      { s1 with unpaired_robots := setAdd s1.unpaired_robots fresh }
    else
      { s1 with unpaired_spectacles := setAdd s1.unpaired_spectacles fresh }
  let msg := OutMsg.status_update STATUS_WAITING
    ("Connected as " ++ client_type ++ ". Waiting for a peer to connect...")
    (some fresh) none none
  { s2 with outbox := s2.outbox ++ [(fresh, msg)] }

/-- Identification check of `websocket_handler` (main.py lines 366-377):
the declared type, when the first frame is a JSON object whose `type` field
is the string `robot` or `spectacles`.  `raw = none` models a first frame
that is not valid JSON (`receive_json` raises).  Every other shape (missing
field, non-string, other value, non-object frame) ends, as in the source,
with the transport closed and no client created. -/
def identKind (raw : Option JValue) : Option String :=
  match raw with
  | some (JValue.obj fields) =>
    match alookup fields "type" with
    | some (JValue.str t) =>
      if t = CLIENT_TYPE_ROBOT ∨ t = CLIENT_TYPE_SPECTACLES then some t else none
    | _ => none
  | _ => none

/-- The identification phase of `websocket_handler` (main.py lines 366-405):
on a valid identification, register the client and run `try_pair_clients`;
otherwise close the transport leaving the state untouched.  The returned
Bool reports whether a client was created. -/
def identifyStep (s : ServerState) (raw : Option JValue) (addr fresh : String)
    (now : ℚ) : ServerState × Bool :=
  match identKind raw with
  | none => (s, false)
  | some t => ((try_pair_clients (registerClient s t addr fresh now)).1, true)

/-- `data.get(key) == lit` for a string literal, as in
`data.get("type") == "pong"`: true exactly when the field is present and is
that string. -/
def jIsStr (v : Option JValue) (lit : String) : Bool :=
  match v with
  | some (JValue.str t) => t == lit
  | _ => false

/-- Python truthiness of a JSON-decoded value (`if ping_time:`, line 419). -/
def jTruthy : JValue → Bool
  | JValue.null => false
  | JValue.bool b => b
  | JValue.num q => !(q == 0)
  | JValue.str t => !(t == "")
  | JValue.arr xs => !xs.isEmpty
  | JValue.obj fs => !fs.isEmpty

/-- Numeric value of a JSON-decoded value for `pong_time - ping_time`
(line 420); `none` models the `TypeError` a non-numeric raises
(JSON `true`/`false` decode to Python bools, which are integers). -/
def jNum : JValue → Option ℚ
  | JValue.num q => some q
  | JValue.bool b => some (if b then 1 else 0)
  | _ => none

/-- `latency_history` append with cap 50 (main.py lines 421-424): append,
then `pop(0)` once the length exceeds 50. -/
def capPush (l : List ℚ) (x : ℚ) : List ℚ :=
  let l1 := l ++ [x]
  if 50 < l1.length then l1.tail else l1

/-- The TEXT branch of the `websocket_handler` message loop (main.py lines
409-457).  `raw = none` models a frame rejected by `json.loads`
(`JSONDecodeError`: logged, nothing changes).  The returned Bool is true
when an exception other than `JSONDecodeError` escapes the loop body (a
`data.get` on a non-object, or subtracting a non-numeric `ping_timestamp`),
which in the source ends the read loop.  A sender id no longer in the
registry leaves the registry-observable state unchanged (the source then
mutates only the orphaned object). -/
def handleText (s : ServerState) (client_id : String) (raw : Option JValue)
    (now : ℚ) : ServerState × Bool :=
  match raw with
  | none => (s, false)
  | some data =>
    match alookup s.clients client_id with
    | none => (s, false)
    | some _ =>
      let cs1 := aupdate s.clients client_id
        (fun c => Client.log_message
          { c with messages_received := c.messages_received + 1 }
          (LogContent.json data) "in" "json" now)
      let s1 := { s with clients := cs1 }
      match alookup s1.clients client_id with
      | none => (s1, false)
      | some client =>
        match data with
        | JValue.obj fields =>
          if jIsStr (alookup fields "type") "pong" then
            let ping_time := (alookup fields "ping_timestamp").getD (JValue.num 0)
            if jTruthy ping_time then
              match jNum ping_time with
              | some q =>
                let cs2 := aupdate s1.clients client_id
                  (fun c => { c with latency_history := capPush c.latency_history (now - q) })
                ({ s1 with clients := cs2 }, false)
              | none => (s1, true)
            else (s1, false)
          else if jIsStr (alookup fields "type") "unpair" then
            match client.paired_with with
            | some pid => (unpair_clients s1 client_id pid "Client requested to unpair", false)
            | none => (s1, false)
          else
            match client.paired_with with
            | some pid =>
              match alookup s1.clients pid with
              | some paired_client =>
                if paired_client.ws_open then
                  let relay_data := JValue.obj
                    (aset (aset fields "relayed" (JValue.bool true))
                      "source_client" (JValue.str client_id))
                  let cs2 := aupdate s1.clients pid
                    (fun c =>
                      { (Client.log_message c (LogContent.json relay_data) "out" "json" now) with
                        messages_sent := c.messages_sent + 1 })
                  let s2 := { s1 with clients := cs2 }
                  ({ s2 with outbox := s2.outbox ++ [(paired_client.id, OutMsg.relayed_json relay_data)] },
                    false)
                else (s1, false)
              | none => (s1, false)
            | none => (s1, false)
        | _ => (s1, true)

/-- The BINARY branch of the `websocket_handler` message loop (main.py lines
459-467). -/
def handleBinary (s : ServerState) (client_id : String) (data : List Nat)
    (now : ℚ) : ServerState :=
  match alookup s.clients client_id with
  | none => s
  | some _ =>
    let cs1 := aupdate s.clients client_id
      (fun c => Client.log_message
        { c with messages_received := c.messages_received + 1 }
        (LogContent.bytes data) "in" "bytes" now)
    let s1 := { s with clients := cs1 }
    match alookup s1.clients client_id with
    | none => s1
    | some client =>
      match client.paired_with with
      | some pid =>
        match alookup s1.clients pid with
        | some paired_client =>
          if paired_client.ws_open then
            let cs2 := aupdate s1.clients pid
              (fun c => Client.log_message
                { c with messages_sent := c.messages_sent + 1 }
                (LogContent.bytes data) "out" "bytes" now)
            let s2 := { s1 with clients := cs2 }
            { s2 with outbox := s2.outbox ++ [(paired_client.id, OutMsg.relayed_bytes data)] }
          else s1
        | none => s1
      | none => s1

/-- One client's probe in `latency_measurement_task` (main.py lines
329-336): paired clients with an open socket get a ping carrying the
current timestamp, recorded as `last_ping_time`. -/
def pingClient (s : ServerState) (client_id : String) (now : ℚ) : ServerState :=
  match alookup s.clients client_id with
  | none => s
  | some client =>
    if client.is_paired ∧ client.ws_open then
      let cs := aupdate s.clients client_id (fun c => { c with last_ping_time := now })
      let s1 := { s with clients := cs }
      { s1 with outbox := s1.outbox ++ [(client.id, OutMsg.ping now)] }
    else s

/-- A fresh connection id: `secrets.token_hex(8)` never collides with a live
client nor with any id still parked in an unpaired set (ids are never
reused). -/
def freshFor (s : ServerState) (id : String) : Prop :=
  alookup s.clients id = none ∧ id ∉ s.unpaired_robots ∧ id ∉ s.unpaired_spectacles

/-- The states the server can reach: the empty initial state, closed under
every operation the source performs.  Opportunistic pairing is closed under
an arbitrary choice from the two unpaired sets (the source's
`next(iter(...))` order is implementation-defined). -/
inductive Reachable : ServerState → Prop where
  | init : Reachable ServerState.initial
  | register (s : ServerState) (h : Reachable s) (t addr fresh : String) (now : ℚ)
      (ht : t = CLIENT_TYPE_ROBOT ∨ t = CLIENT_TYPE_SPECTACLES)
      (hf : freshFor s fresh) : Reachable (registerClient s t addr fresh now)
  | opportunisticPair (s : ServerState) (h : Reachable s) (rid sid : String)
      (hr : rid ∈ s.unpaired_robots) (hsp : sid ∈ s.unpaired_spectacles) :
      Reachable (pairSelected s rid sid).1
  | forcePair (s : ServerState) (h : Reachable s) (cid : String) (pw : Option String) :
      Reachable (force_pair_handler s cid pw).1
  | textFrame (s : ServerState) (h : Reachable s) (cid : String) (raw : Option JValue)
      (now : ℚ) : Reachable (handleText s cid raw now).1
  | binaryFrame (s : ServerState) (h : Reachable s) (cid : String) (data : List Nat)
      (now : ℚ) : Reachable (handleBinary s cid data now)
  | disconnect (s : ServerState) (h : Reachable s) (cid : String) :
      Reachable (remove_client s cid)
  | adminClose (s : ServerState) (h : Reachable s) (cid : String) :
      Reachable (close_connection_handler s cid).1
  | probe (s : ServerState) (h : Reachable s) (cid : String) (now : ℚ) :
      Reachable (pingClient s cid now)

/-! ### Association-list and set toolkit -/

theorem alookup_aupdate {α : Type} (l : List (String × α)) (key k : String)
    (f : α → α) :
    alookup (aupdate l key f) k =
      if k = key then (alookup l key).map f else alookup l k := by
  induction l with
  | nil => simp [alookup, aupdate]
  | cons p t ih =>
    obtain ⟨a, v⟩ := p
    by_cases hak : a = key
    · subst hak
      by_cases hk : k = a
      · subst hk
        simp [alookup, aupdate]
      · simp [alookup, aupdate, hk, Ne.symm hk, ih]
    · by_cases hk : k = a
      · subst hk
        simp [alookup, aupdate, hak, Ne.symm hak]
      · simp [alookup, aupdate, hak, hk, Ne.symm hk, ih]

theorem alookup_aerase {α : Type} (l : List (String × α)) (key k : String) :
    alookup (aerase l key) k = if k = key then none else alookup l k := by
  induction l with
  | nil => simp [alookup, aerase]
  | cons p t ih =>
    obtain ⟨a, v⟩ := p
    by_cases hak : a = key
    · subst hak
      by_cases hk : k = a
      · subst hk
        simp [alookup, aerase, ih]
      · simp [alookup, aerase, hk, Ne.symm hk, ih]
    · by_cases hk : k = a
      · subst hk
        simp [alookup, aerase, hak, Ne.symm hak]
      · simp [alookup, aerase, hak, hk, Ne.symm hk, ih]

theorem alookup_append {α : Type} (l m : List (String × α)) (k : String) :
    alookup (l ++ m) k = ((alookup l k).or (alookup m k)) := by
  induction l with
  | nil => simp [alookup]
  | cons p t ih =>
    by_cases hk : p.1 = k <;> simp [alookup, hk, ih]

theorem alookup_single {α : Type} (key k : String) (v : α) :
    alookup [(key, v)] k = if key = k then some v else none := by
  simp [alookup]

theorem mem_setAdd {l : List String} {x y : String} :
    y ∈ setAdd l x ↔ y = x ∨ y ∈ l := by
  unfold setAdd
  split
  · rename_i h
    constructor
    · exact fun hy => Or.inr hy
    · rintro (rfl | hy)
      · exact h
      · exact hy
  · simp [or_comm]

theorem nodup_setAdd {l : List String} {x : String} (h : l.Nodup) :
    (setAdd l x).Nodup := by
  unfold setAdd
  split
  · exact h
  · rename_i hx
    simp [List.nodup_append, h, hx]

theorem count_setAdd_self {l : List String} {x : String} (h : x ∉ l) :
    (setAdd l x).count x = 1 := by
  unfold setAdd
  simp [h, List.count_append, List.count_eq_zero_of_not_mem h]

/-! ### The registry invariant -/

/-- The state invariant the server maintains: the unpaired sets are
duplicate-free and mutually disjoint, ids in an unpaired set belong to
live, unpaired clients of the matching kind, stored ids match registry
keys, client kinds are one of the two valid strings, `paired_with` is
symmetric, and latency windows never exceed 50 samples. -/
structure StateInv (s : ServerState) : Prop where
  robots_nodup : s.unpaired_robots.Nodup
  spectacles_nodup : s.unpaired_spectacles.Nodup
  sets_disjoint : ∀ i, i ∈ s.unpaired_robots → i ∉ s.unpaired_spectacles
  key_id : ∀ k c, alookup s.clients k = some c → c.id = k
  ctype_valid : ∀ k c, alookup s.clients k = some c →
    c.ctype = CLIENT_TYPE_ROBOT ∨ c.ctype = CLIENT_TYPE_SPECTACLES
  robots_ok : ∀ i c, i ∈ s.unpaired_robots → alookup s.clients i = some c →
    c.ctype = CLIENT_TYPE_ROBOT ∧ c.paired_with = none
  spectacles_ok : ∀ i c, i ∈ s.unpaired_spectacles → alookup s.clients i = some c →
    c.ctype = CLIENT_TYPE_SPECTACLES ∧ c.paired_with = none
  paired_symm : ∀ a b ca, alookup s.clients a = some ca → ca.paired_with = some b →
    ∃ cb, alookup s.clients b = some cb ∧ cb.paired_with = some a
  latency_bound : ∀ k c, alookup s.clients k = some c → c.latency_history.length ≤ 50

theorem StateInv.not_mem_robots_of_paired {s : ServerState} (hs : StateInv s) {x y : String}
    {c : Client} (hx : alookup s.clients x = some c) (hp : c.paired_with = some y) :
    x ∉ s.unpaired_robots := by
  intro hmem
  have h := (hs.robots_ok x c hmem hx).2
  rw [h] at hp
  cases hp

theorem StateInv.not_mem_spectacles_of_paired {s : ServerState} (hs : StateInv s) {x y : String}
    {c : Client} (hx : alookup s.clients x = some c) (hp : c.paired_with = some y) :
    x ∉ s.unpaired_spectacles := by
  intro hmem
  have h := (hs.spectacles_ok x c hmem hx).2
  rw [h] at hp
  cases hp

theorem StateInv.not_mem_robots_of_ctype {s : ServerState} (hs : StateInv s) {x : String}
    {c : Client} (hx : alookup s.clients x = some c)
    (h : ¬ c.ctype = CLIENT_TYPE_ROBOT) : x ∉ s.unpaired_robots := by
  intro hmem
  exact h (hs.robots_ok x c hmem hx).1

theorem StateInv.not_mem_spectacles_of_ctype {s : ServerState} (hs : StateInv s) {x : String}
    {c : Client} (hx : alookup s.clients x = some c)
    (h : ¬ c.ctype = CLIENT_TYPE_SPECTACLES) : x ∉ s.unpaired_spectacles := by
  intro hmem
  exact h (hs.spectacles_ok x c hmem hx).1

/-- `StateInv` only reads the registry and the two unpaired sets, so it
transfers along any state with equal such fields (e.g. after appending to
the outbox). -/
theorem StateInv.transfer {s s' : ServerState} (hs : StateInv s) (hc : s'.clients = s.clients)
    (hr : s'.unpaired_robots = s.unpaired_robots)
    (hsp : s'.unpaired_spectacles = s.unpaired_spectacles) : StateInv s' := by
  obtain ⟨h1, h2, h3, h4, h5, h6, h7, h8, h9⟩ := hs
  exact ⟨by rw [hr]; exact h1, by rw [hsp]; exact h2, by rw [hr, hsp]; exact h3,
    by rw [hc]; exact h4, by rw [hc]; exact h5, by rw [hr, hc]; exact h6,
    by rw [hsp, hc]; exact h7, by rw [hc]; exact h8, by rw [hc]; exact h9⟩

theorem notify_client_paired_clients (s : ServerState) (c p : Client) :
    (notify_client_paired s c p).clients = s.clients := by
  unfold notify_client_paired
  split <;> rfl

theorem notify_client_paired_robots (s : ServerState) (c p : Client) :
    (notify_client_paired s c p).unpaired_robots = s.unpaired_robots := by
  unfold notify_client_paired
  split <;> rfl

theorem notify_client_paired_spectacles (s : ServerState) (c p : Client) :
    (notify_client_paired s c p).unpaired_spectacles = s.unpaired_spectacles := by
  unfold notify_client_paired
  split <;> rfl

theorem notify_client_unpaired_clients (s : ServerState) (c : Client) (r : String) :
    (notify_client_unpaired s c r).clients = s.clients := by
  unfold notify_client_unpaired
  split <;> rfl

theorem notify_client_unpaired_robots (s : ServerState) (c : Client) (r : String) :
    (notify_client_unpaired s c r).unpaired_robots = s.unpaired_robots := by
  unfold notify_client_unpaired
  split <;> rfl

theorem notify_client_unpaired_spectacles (s : ServerState) (c : Client) (r : String) :
    (notify_client_unpaired s c r).unpaired_spectacles = s.unpaired_spectacles := by
  unfold notify_client_unpaired
  split <;> rfl

/-- Updating one client with a function that does not touch its identity,
kind or pairing, and keeps the latency window within bounds, preserves the
invariant. -/
theorem StateInv.update_benign {s : ServerState} (hs : StateInv s) (key : String)
    (f : Client → Client)
    (hid : ∀ c, (f c).id = c.id) (hty : ∀ c, (f c).ctype = c.ctype)
    (hpw : ∀ c, (f c).paired_with = c.paired_with)
    (hlat : ∀ c, c.latency_history.length ≤ 50 → (f c).latency_history.length ≤ 50) :
    StateInv { s with clients := aupdate s.clients key f } := by
  have main : ∀ x cx, alookup (aupdate s.clients key f) x = some cx →
      ∃ cx0, alookup s.clients x = some cx0 ∧ cx.id = cx0.id ∧
        cx.ctype = cx0.ctype ∧ cx.paired_with = cx0.paired_with ∧
        (cx0.latency_history.length ≤ 50 → cx.latency_history.length ≤ 50) := by
    intro x cx hx
    rw [alookup_aupdate] at hx
    by_cases h : x = key
    · rw [if_pos h] at hx
      obtain ⟨a, ha, rfl⟩ := Option.map_eq_some'.mp hx
      subst h
      exact ⟨a, ha, hid a, hty a, hpw a, hlat a⟩
    · rw [if_neg h] at hx
      exact ⟨cx, hx, rfl, rfl, rfl, fun hb => hb⟩
  have fwd : ∀ x cx0, alookup s.clients x = some cx0 →
      alookup (aupdate s.clients key f) x =
        some (if x = key then f cx0 else cx0) := by
    intro x cx0 hx
    rw [alookup_aupdate]
    by_cases h : x = key
    · subst h
      simp [hx]
    · simp [h, hx]
  refine ⟨hs.robots_nodup, hs.spectacles_nodup, hs.sets_disjoint, ?_, ?_, ?_, ?_, ?_, ?_⟩
  · intro k c hk
    obtain ⟨c0, hc0, hidq, _, _, _⟩ := main k c hk
    rw [hidq]
    exact hs.key_id k c0 hc0
  · intro k c hk
    obtain ⟨c0, hc0, _, htyq, _, _⟩ := main k c hk
    rw [htyq]
    exact hs.ctype_valid k c0 hc0
  · intro i c hi hk
    obtain ⟨c0, hc0, _, htyq, hpwq, _⟩ := main i c hk
    rw [htyq, hpwq]
    exact hs.robots_ok i c0 hi hc0
  · intro i c hi hk
    obtain ⟨c0, hc0, _, htyq, hpwq, _⟩ := main i c hk
    rw [htyq, hpwq]
    exact hs.spectacles_ok i c0 hi hc0
  · intro a b ca ha hab
    obtain ⟨ca0, hca0, _, _, hpwq, _⟩ := main a ca ha
    rw [hpwq] at hab
    obtain ⟨cb, hcb, hba⟩ := hs.paired_symm a b ca0 hca0 hab
    refine ⟨if b = key then f cb else cb, fwd b cb hcb, ?_⟩
    by_cases h : b = key
    · simp [h, hpw, hba]
    · simp [h, hba]
  · intro k c hk
    obtain ⟨c0, hc0, _, _, _, hlatq⟩ := main k c hk
    exact hlatq (hs.latency_bound k c0 hc0)

/-- Lookup after `pairUpdate` away from both participants. -/
theorem alookup_pairUpdate_other (cs : List (String × Client)) (a b k : String)
    (hka : ¬ k = a) (hkb : ¬ k = b) :
    alookup (pairUpdate cs a b) k = alookup cs k := by
  unfold pairUpdate
  rw [alookup_aupdate, if_neg hkb, alookup_aupdate, if_neg hka]

/-- Lookup of the second participant after `pairUpdate`. -/
theorem alookup_pairUpdate_right (cs : List (String × Client)) (a b : String)
    (ca cb : Client) (ha : alookup cs a = some ca) (hb : alookup cs b = some cb) :
    alookup (pairUpdate cs a b) b =
      some { (if b = a then ca else cb) with paired_with := some a } := by
  unfold pairUpdate
  rw [alookup_aupdate, if_pos rfl, alookup_aupdate]
  by_cases hba : b = a
  · rw [if_pos hba, hba, ha]
    simp [hba]
  · rw [if_neg hba, hb]
    simp [hba]

/-- Lookup of the first participant after `pairUpdate` (distinct ids). -/
theorem alookup_pairUpdate_left (cs : List (String × Client)) (a b : String)
    (ca : Client) (ha : alookup cs a = some ca) (hab : ¬ a = b) :
    alookup (pairUpdate cs a b) a = some { ca with paired_with := some b } := by
  unfold pairUpdate
  rw [alookup_aupdate, if_neg hab, alookup_aupdate, if_pos rfl, ha]
  rfl

/-- `pairUpdate` only changes `paired_with` fields. -/
theorem alookup_pairUpdate_shape (cs : List (String × Client)) (a b k : String)
    (c' : Client) (hk : alookup (pairUpdate cs a b) k = some c') :
    ∃ c0, alookup cs k = some c0 ∧ c'.id = c0.id ∧
      c'.ctype = c0.ctype ∧ c'.latency_history = c0.latency_history := by
  unfold pairUpdate at hk
  rw [alookup_aupdate] at hk
  by_cases hkb : k = b
  · rw [if_pos hkb, alookup_aupdate] at hk
    by_cases hba : b = a
    · rw [if_pos hba] at hk
      subst hkb
      rw [hba] at hk ⊢
      cases hax : alookup cs a with
      | none => rw [hax] at hk; cases hk
      | some ca =>
        rw [hax] at hk
        obtain rfl : _ = c' := Option.some_injective _ hk
        exact ⟨ca, rfl, rfl, rfl, rfl⟩
    · rw [if_neg hba] at hk
      subst hkb
      cases hbx : alookup cs k with
      | none => rw [hbx] at hk; cases hk
      | some cb =>
        rw [hbx] at hk
        obtain rfl : _ = c' := Option.some_injective _ hk
        exact ⟨cb, rfl, rfl, rfl, rfl⟩
  · rw [if_neg hkb, alookup_aupdate] at hk
    by_cases hka : k = a
    · rw [if_pos hka] at hk
      subst hka
      cases hax : alookup cs k with
      | none => rw [hax] at hk; cases hk
      | some ca =>
        rw [hax] at hk
        obtain rfl : _ = c' := Option.some_injective _ hk
        exact ⟨ca, rfl, rfl, rfl, rfl⟩
    · rw [if_neg hka] at hk
      exact ⟨c', hk, rfl, rfl, rfl⟩

/-- Symmetrically pairing two live, unpaired clients preserves the
invariant, for any duplicate-free replacement unpaired sets that shrink the
old ones and exclude both participants. -/
theorem StateInv.pair_core {s : ServerState} (hs : StateInv s) (a b : String)
    (ca cb : Client)
    (ha : alookup s.clients a = some ca) (hb : alookup s.clients b = some cb)
    (hpa : ca.paired_with = none) (hpb : cb.paired_with = none)
    (R S : List String) (hR : R.Nodup) (hS : S.Nodup)
    (hRsub : ∀ i, i ∈ R → i ∈ s.unpaired_robots)
    (hSsub : ∀ i, i ∈ S → i ∈ s.unpaired_spectacles)
    (haR : a ∉ R) (haS : a ∉ S) (hbR : b ∉ R) (hbS : b ∉ S)
    (ob : List (String × OutMsg)) :
    StateInv
      { clients := pairUpdate s.clients a b,
        unpaired_robots := R, unpaired_spectacles := S, outbox := ob } := by
  refine ⟨hR, hS, ?_, ?_, ?_, ?_, ?_, ?_, ?_⟩
  · intro i hiR hiS
    exact hs.sets_disjoint i (hRsub i hiR) (hSsub i hiS)
  · intro k c hk
    obtain ⟨c0, hc0, hidq, _, _⟩ := alookup_pairUpdate_shape _ a b k c hk
    rw [hidq]
    exact hs.key_id k c0 hc0
  · intro k c hk
    obtain ⟨c0, hc0, _, htyq, _⟩ := alookup_pairUpdate_shape _ a b k c hk
    rw [htyq]
    exact hs.ctype_valid k c0 hc0
  · intro i c hi hk
    have hia : ¬ i = a := fun h => haR (h ▸ hi)
    have hib : ¬ i = b := fun h => hbR (h ▸ hi)
    rw [alookup_pairUpdate_other _ a b i hia hib] at hk
    exact hs.robots_ok i c (hRsub i hi) hk
  · intro i c hi hk
    have hia : ¬ i = a := fun h => haS (h ▸ hi)
    have hib : ¬ i = b := fun h => hbS (h ▸ hi)
    rw [alookup_pairUpdate_other _ a b i hia hib] at hk
    exact hs.spectacles_ok i c (hSsub i hi) hk
  · intro x y cx hx hxy
    by_cases hxb : x = b
    · subst hxb
      rw [alookup_pairUpdate_right _ a x ca cb ha hb] at hx
      obtain rfl : _ = cx := Option.some_injective _ hx
      obtain rfl : a = y := Option.some_injective _ hxy
      by_cases hab : a = x
      · subst hab
        exact ⟨_, alookup_pairUpdate_right _ a a ca cb ha hb, by simp⟩
      · exact ⟨_, alookup_pairUpdate_left _ a x ca ha hab, by simp⟩
    · by_cases hxa : x = a
      · subst hxa
        rw [alookup_pairUpdate_left _ x b ca ha hxb] at hx
        obtain rfl : _ = cx := Option.some_injective _ hx
        obtain rfl : b = y := Option.some_injective _ hxy
        exact ⟨_, alookup_pairUpdate_right _ x b ca cb ha hb, by simp⟩
      · rw [alookup_pairUpdate_other _ a b x hxa hxb] at hx
        obtain ⟨cy, hcy, hyx⟩ := hs.paired_symm x y cx hx hxy
        have hya : ¬ y = a := by
          intro h
          subst h
          rw [ha] at hcy
          obtain rfl : ca = cy := Option.some_injective _ hcy
          rw [hpa] at hyx
          cases hyx
        have hyb : ¬ y = b := by
          intro h
          subst h
          rw [hb] at hcy
          obtain rfl : cb = cy := Option.some_injective _ hcy
          rw [hpb] at hyx
          cases hyx
        refine ⟨cy, ?_, hyx⟩
        rw [alookup_pairUpdate_other _ a b y hya hyb]
        exact hcy
  · intro k c hk
    obtain ⟨c0, hc0, _, _, hlatq⟩ := alookup_pairUpdate_shape _ a b k c hk
    rw [hlatq]
    exact hs.latency_bound k c0 hc0

theorem alookup_append_single {α : Type} (l : List (String × α)) (key k : String)
    (v : α) (hnone : alookup l key = none) :
    alookup (l ++ [(key, v)]) k = if k = key then some v else alookup l k := by
  rw [alookup_append, alookup_single]
  by_cases h : k = key
  · subst h
    rw [if_pos rfl, if_pos rfl, hnone]
    rfl
  · rw [if_neg h, if_neg (fun hh => h hh.symm)]
    exact Option.or_none

theorem registerClient_clients (s : ServerState) (t addr fresh : String) (now : ℚ) :
    (registerClient s t addr fresh now).clients =
      s.clients ++ [(fresh, Client.init fresh t addr now)] := by
  simp only [registerClient]
  split <;> rfl

theorem registerClient_robots (s : ServerState) (t addr fresh : String) (now : ℚ) :
    (registerClient s t addr fresh now).unpaired_robots =
      if t = CLIENT_TYPE_ROBOT then setAdd s.unpaired_robots fresh
      else s.unpaired_robots := by
  simp only [registerClient]
  split <;> rfl

theorem registerClient_spectacles (s : ServerState) (t addr fresh : String) (now : ℚ) :
    (registerClient s t addr fresh now).unpaired_spectacles =
      if t = CLIENT_TYPE_ROBOT then s.unpaired_spectacles
      else setAdd s.unpaired_spectacles fresh := by
  simp only [registerClient]
  split <;> rfl

/-- Registration of a freshly identified client preserves the invariant. -/
theorem StateInv.register {s : ServerState} (hs : StateInv s)
    (t addr fresh : String) (now : ℚ)
    (ht : t = CLIENT_TYPE_ROBOT ∨ t = CLIENT_TYPE_SPECTACLES)
    (hf : freshFor s fresh) :
    StateInv (registerClient s t addr fresh now) := by
  obtain ⟨hf1, hf2, hf3⟩ := hf
  have hlk : ∀ k, alookup (registerClient s t addr fresh now).clients k =
      if k = fresh then some (Client.init fresh t addr now)
      else alookup s.clients k := by
    intro k
    rw [registerClient_clients]
    exact alookup_append_single s.clients fresh k _ hf1
  refine ⟨?_, ?_, ?_, ?_, ?_, ?_, ?_, ?_, ?_⟩
  · rw [registerClient_robots]
    split
    · exact nodup_setAdd hs.robots_nodup
    · exact hs.robots_nodup
  · rw [registerClient_spectacles]
    split
    · exact hs.spectacles_nodup
    · exact nodup_setAdd hs.spectacles_nodup
  · intro i
    rw [registerClient_robots, registerClient_spectacles]
    split
    · intro hi
      rcases mem_setAdd.mp hi with rfl | hi'
      · exact hf3
      · exact hs.sets_disjoint i hi'
    · intro hi hmem
      rcases mem_setAdd.mp hmem with rfl | hi'
      · exact hf2 hi
      · exact hs.sets_disjoint i hi hi'
  · intro k c hk
    rw [hlk] at hk
    by_cases h : k = fresh
    · rw [if_pos h] at hk
      obtain rfl : _ = c := Option.some_injective _ hk
      rw [h]
      rfl
    · rw [if_neg h] at hk
      exact hs.key_id k c hk
  · intro k c hk
    rw [hlk] at hk
    by_cases h : k = fresh
    · rw [if_pos h] at hk
      obtain rfl : _ = c := Option.some_injective _ hk
      exact ht
    · rw [if_neg h] at hk
      exact hs.ctype_valid k c hk
  · intro i c hi hk
    rw [hlk] at hk
    rw [registerClient_robots] at hi
    by_cases h : i = fresh
    · rw [if_pos h] at hk
      obtain rfl : _ = c := Option.some_injective _ hk
      subst h
      constructor
      · by_cases hrob : t = CLIENT_TYPE_ROBOT
        · exact hrob
        · rw [if_neg hrob] at hi
          exact absurd hi hf2
      · rfl
    · rw [if_neg h] at hk
      refine hs.robots_ok i c ?_ hk
      by_cases hrob : t = CLIENT_TYPE_ROBOT
      · rw [if_pos hrob] at hi
        rcases mem_setAdd.mp hi with rfl | hi'
        · exact absurd rfl h
        · exact hi'
      · rw [if_neg hrob] at hi
        exact hi
  · intro i c hi hk
    rw [hlk] at hk
    rw [registerClient_spectacles] at hi
    by_cases h : i = fresh
    · rw [if_pos h] at hk
      obtain rfl : _ = c := Option.some_injective _ hk
      subst h
      constructor
      · by_cases hrob : t = CLIENT_TYPE_ROBOT
        · rw [if_pos hrob] at hi
          exact absurd hi hf3
        · rcases ht with h1 | h1
          · exact absurd h1 hrob
          · exact h1
      · rfl
    · rw [if_neg h] at hk
      refine hs.spectacles_ok i c ?_ hk
      by_cases hrob : t = CLIENT_TYPE_ROBOT
      · rw [if_pos hrob] at hi
        exact hi
      · rw [if_neg hrob] at hi
        rcases mem_setAdd.mp hi with rfl | hi'
        · exact absurd rfl h
        · exact hi'
  · intro x y cx hx hxy
    rw [hlk] at hx
    by_cases h : x = fresh
    · rw [if_pos h] at hx
      obtain rfl : _ = cx := Option.some_injective _ hx
      cases hxy
    · rw [if_neg h] at hx
      obtain ⟨cy, hcy, hyx⟩ := hs.paired_symm x y cx hx hxy
      refine ⟨cy, ?_, hyx⟩
      rw [hlk]
      by_cases hy : y = fresh
      · subst hy
        rw [hf1] at hcy
        cases hcy
      · rw [if_neg hy]
        exact hcy
  · intro k c hk
    rw [hlk] at hk
    by_cases h : k = fresh
    · rw [if_pos h] at hk
      obtain rfl : _ = c := Option.some_injective _ hk
      simp [Client.init]
    · rw [if_neg h] at hk
      exact hs.latency_bound k c hk

/-- Opportunistic pairing of a chosen robot/spectacles pair preserves the
invariant. -/
theorem StateInv.pair_selected {s : ServerState} (hs : StateInv s) (rid sid : String)
    (hr : rid ∈ s.unpaired_robots) (hsp : sid ∈ s.unpaired_spectacles) :
    StateInv (pairSelected s rid sid).1 := by
  unfold pairSelected
  cases hra : alookup s.clients rid with
  | none => exact hs
  | some rc =>
    cases hsa : alookup s.clients sid with
    | none => exact hs
    | some sc =>
      have hrid_ns : rid ∉ s.unpaired_spectacles := hs.sets_disjoint rid hr
      have hsid_nr : sid ∉ s.unpaired_robots := fun hmem =>
        hs.sets_disjoint sid hmem hsp
      have hcore := hs.pair_core rid sid rc sc hra hsa
        (hs.robots_ok rid rc hr hra).2 (hs.spectacles_ok sid sc hsp hsa).2
        (s.unpaired_robots.erase rid) (s.unpaired_spectacles.erase sid)
        (hs.robots_nodup.erase rid) (hs.spectacles_nodup.erase sid)
        (fun i hi => List.mem_of_mem_erase hi)
        (fun i hi => List.mem_of_mem_erase hi)
        (fun hmem => ((hs.robots_nodup.mem_erase_iff.mp hmem).1) rfl)
        (fun hmem => hrid_ns (List.mem_of_mem_erase hmem))
        (fun hmem => hsid_nr (List.mem_of_mem_erase hmem))
        (fun hmem => ((hs.spectacles_nodup.mem_erase_iff.mp hmem).1) rfl)
        s.outbox
      refine StateInv.transfer hcore ?_ ?_ ?_
      · rw [notify_client_paired_clients, notify_client_paired_clients]
      · rw [notify_client_paired_robots, notify_client_paired_robots]
      · rw [notify_client_paired_spectacles, notify_client_paired_spectacles]

/-- `try_pair_clients` preserves the invariant. -/
theorem StateInv.try_pair {s : ServerState} (hs : StateInv s) :
    StateInv (try_pair_clients s).1 := by
  unfold try_pair_clients
  cases hh : s.unpaired_robots.head? with
  | none => exact hs
  | some rid =>
    cases hh2 : s.unpaired_spectacles.head? with
    | none => exact hs
    | some sid =>
      exact hs.pair_selected rid sid (List.mem_of_mem_head? (by rw [hh]; rfl))
        (List.mem_of_mem_head? (by rw [hh2]; rfl))

/-- `force_pair_handler` preserves the invariant in every branch. -/
theorem StateInv.force_pair {s : ServerState} (hs : StateInv s) (cid : String)
    (pw : Option String) : StateInv (force_pair_handler s cid pw).1 := by
  unfold force_pair_handler
  cases hca : alookup s.clients cid with
  | none => exact hs
  | some client =>
    cases pw with
    | none => exact hs
    | some pid =>
      dsimp only
      by_cases hemp : pid = ""
      · rw [if_pos hemp]
        exact hs
      · rw [if_neg hemp]
        cases hpa : alookup s.clients pid with
        | none => exact hs
        | some pwc =>
          dsimp only
          by_cases hp1 : client.is_paired
          · rw [if_pos hp1]
            exact hs
          · rw [if_neg hp1]
            by_cases hp2 : pwc.is_paired
            · rw [if_pos hp2]
              exact hs
            · rw [if_neg hp2]
              have hpw1 : client.paired_with = none := by
                cases h : client.paired_with with
                | none => rfl
                | some z => exact absurd (by simp [Client.is_paired, h]) hp1
              have hpw2 : pwc.paired_with = none := by
                cases h : pwc.paired_with with
                | none => rfl
                | some z => exact absurd (by simp [Client.is_paired, h]) hp2
              by_cases hct1 : client.ctype = CLIENT_TYPE_ROBOT
              · rw [if_pos hct1]
                have hcns : cid ∉ s.unpaired_spectacles :=
                  hs.not_mem_spectacles_of_ctype hca (by rw [hct1]; decide)
                by_cases hct2 : pwc.ctype = CLIENT_TYPE_ROBOT
                · rw [if_pos hct2]
                  have hpns : pid ∉ s.unpaired_spectacles :=
                    hs.not_mem_spectacles_of_ctype hpa (by rw [hct2]; decide)
                  have hcore := hs.pair_core cid pid client pwc hca hpa hpw1 hpw2
                    ((s.unpaired_robots.erase cid).erase pid) s.unpaired_spectacles
                    ((hs.robots_nodup.erase cid).erase pid) hs.spectacles_nodup
                    (fun i hi => List.mem_of_mem_erase (List.mem_of_mem_erase hi))
                    (fun i hi => hi)
                    (fun hmem => (hs.robots_nodup.mem_erase_iff.mp
                      (List.mem_of_mem_erase hmem)).1 rfl)
                    hcns
                    (fun hmem => ((hs.robots_nodup.erase cid).mem_erase_iff.mp
                      hmem).1 rfl)
                    hpns s.outbox
                  refine StateInv.transfer hcore ?_ ?_ ?_
                  · rw [notify_client_paired_clients, notify_client_paired_clients]
                  · rw [notify_client_paired_robots, notify_client_paired_robots]
                  · rw [notify_client_paired_spectacles, notify_client_paired_spectacles]
                · rw [if_neg hct2]
                  have hpnr : pid ∉ s.unpaired_robots :=
                    hs.not_mem_robots_of_ctype hpa hct2
                  have hcore := hs.pair_core cid pid client pwc hca hpa hpw1 hpw2
                    (s.unpaired_robots.erase cid) (s.unpaired_spectacles.erase pid)
                    (hs.robots_nodup.erase cid) (hs.spectacles_nodup.erase pid)
                    (fun i hi => List.mem_of_mem_erase hi)
                    (fun i hi => List.mem_of_mem_erase hi)
                    (fun hmem => (hs.robots_nodup.mem_erase_iff.mp hmem).1 rfl)
                    (fun hmem => hcns (List.mem_of_mem_erase hmem))
                    (fun hmem => hpnr (List.mem_of_mem_erase hmem))
                    (fun hmem => (hs.spectacles_nodup.mem_erase_iff.mp hmem).1 rfl)
                    s.outbox
                  refine StateInv.transfer hcore ?_ ?_ ?_
                  · rw [notify_client_paired_clients, notify_client_paired_clients]
                  · rw [notify_client_paired_robots, notify_client_paired_robots]
                  · rw [notify_client_paired_spectacles, notify_client_paired_spectacles]
              · rw [if_neg hct1]
                have hcnr : cid ∉ s.unpaired_robots :=
                  hs.not_mem_robots_of_ctype hca hct1
                by_cases hct2 : pwc.ctype = CLIENT_TYPE_ROBOT
                · rw [if_pos hct2]
                  have hpns : pid ∉ s.unpaired_spectacles :=
                    hs.not_mem_spectacles_of_ctype hpa (by rw [hct2]; decide)
                  have hcore := hs.pair_core cid pid client pwc hca hpa hpw1 hpw2
                    (s.unpaired_robots.erase pid) (s.unpaired_spectacles.erase cid)
                    (hs.robots_nodup.erase pid) (hs.spectacles_nodup.erase cid)
                    (fun i hi => List.mem_of_mem_erase hi)
                    (fun i hi => List.mem_of_mem_erase hi)
                    (fun hmem => hcnr (List.mem_of_mem_erase hmem))
                    (fun hmem => (hs.spectacles_nodup.mem_erase_iff.mp hmem).1 rfl)
                    (fun hmem => (hs.robots_nodup.mem_erase_iff.mp hmem).1 rfl)
                    (fun hmem => hpns (List.mem_of_mem_erase hmem))
                    s.outbox
                  refine StateInv.transfer hcore ?_ ?_ ?_
                  · rw [notify_client_paired_clients, notify_client_paired_clients]
                  · rw [notify_client_paired_robots, notify_client_paired_robots]
                  · rw [notify_client_paired_spectacles, notify_client_paired_spectacles]
                · rw [if_neg hct2]
                  have hpnr : pid ∉ s.unpaired_robots :=
                    hs.not_mem_robots_of_ctype hpa hct2
                  have hcore := hs.pair_core cid pid client pwc hca hpa hpw1 hpw2
                    s.unpaired_robots ((s.unpaired_spectacles.erase cid).erase pid)
                    hs.robots_nodup ((hs.spectacles_nodup.erase cid).erase pid)
                    (fun i hi => hi)
                    (fun i hi => List.mem_of_mem_erase (List.mem_of_mem_erase hi))
                    hcnr
                    (fun hmem => (hs.spectacles_nodup.mem_erase_iff.mp
                      (List.mem_of_mem_erase hmem)).1 rfl)
                    hpnr
                    (fun hmem => ((hs.spectacles_nodup.erase cid).mem_erase_iff.mp
                      hmem).1 rfl)
                    s.outbox
                  refine StateInv.transfer hcore ?_ ?_ ?_
                  · rw [notify_client_paired_clients, notify_client_paired_clients]
                  · rw [notify_client_paired_robots, notify_client_paired_robots]
                  · rw [notify_client_paired_spectacles, notify_client_paired_spectacles]

theorem alookup_unpairUpdate_other (cs : List (String × Client)) (a b k : String)
    (hka : ¬ k = a) (hkb : ¬ k = b) :
    alookup (unpairUpdate cs a b) k = alookup cs k := by
  unfold unpairUpdate
  rw [alookup_aupdate, if_neg hkb, alookup_aupdate, if_neg hka]

theorem alookup_unpairUpdate_right (cs : List (String × Client)) (a b : String)
    (ca cb : Client) (ha : alookup cs a = some ca) (hb : alookup cs b = some cb) :
    alookup (unpairUpdate cs a b) b =
      some { (if b = a then ca else cb) with paired_with := none } := by
  unfold unpairUpdate
  rw [alookup_aupdate, if_pos rfl, alookup_aupdate]
  by_cases hba : b = a
  · rw [if_pos hba, hba, ha]
    simp [hba]
  · rw [if_neg hba, hb]
    simp [hba]

theorem alookup_unpairUpdate_left (cs : List (String × Client)) (a b : String)
    (ca : Client) (ha : alookup cs a = some ca) (hab : ¬ a = b) :
    alookup (unpairUpdate cs a b) a = some { ca with paired_with := none } := by
  unfold unpairUpdate
  rw [alookup_aupdate, if_neg hab, alookup_aupdate, if_pos rfl, ha]
  rfl

theorem alookup_unpairUpdate_self_left (cs : List (String × Client)) (a b : String)
    (ca cb : Client) (ha : alookup cs a = some ca) (hb : alookup cs b = some cb) :
    alookup (unpairUpdate cs a b) a = some { ca with paired_with := none } := by
  by_cases hab : a = b
  · subst hab
    rw [alookup_unpairUpdate_right cs a a ca cb ha hb]
    simp
  · exact alookup_unpairUpdate_left cs a b ca ha hab

theorem alookup_unpairUpdate_self_right (cs : List (String × Client)) (a b : String)
    (ca cb : Client) (ha : alookup cs a = some ca) (hb : alookup cs b = some cb) :
    alookup (unpairUpdate cs a b) b = some { cb with paired_with := none } := by
  rw [alookup_unpairUpdate_right cs a b ca cb ha hb]
  by_cases hba : b = a
  · rw [if_pos hba]
    have hq : ca = cb := by
      rw [hba] at hb
      exact Option.some_injective _ (ha.symm.trans hb)
    rw [hq]
  · rw [if_neg hba]

theorem alookup_unpairUpdate_shape (cs : List (String × Client)) (a b k : String)
    (c' : Client) (hk : alookup (unpairUpdate cs a b) k = some c') :
    ∃ c0, alookup cs k = some c0 ∧ c'.id = c0.id ∧
      c'.ctype = c0.ctype ∧ c'.latency_history = c0.latency_history := by
  unfold unpairUpdate at hk
  rw [alookup_aupdate] at hk
  by_cases hkb : k = b
  · subst hkb
    rw [if_pos rfl, alookup_aupdate] at hk
    by_cases hba : k = a
    · rw [if_pos hba] at hk
      cases hax : alookup cs a with
      | none => rw [hax] at hk; cases hk
      | some ca =>
        rw [hax] at hk
        obtain rfl : _ = c' := Option.some_injective _ hk
        refine ⟨ca, ?_, rfl, rfl, rfl⟩
        rw [hba, hax]
    · rw [if_neg hba] at hk
      cases hbx : alookup cs k with
      | none => rw [hbx] at hk; cases hk
      | some cb =>
        rw [hbx] at hk
        obtain rfl : _ = c' := Option.some_injective _ hk
        exact ⟨cb, rfl, rfl, rfl, rfl⟩
  · rw [if_neg hkb, alookup_aupdate] at hk
    by_cases hka : k = a
    · rw [if_pos hka] at hk
      cases hax : alookup cs a with
      | none => rw [hax] at hk; cases hk
      | some ca =>
        rw [hax] at hk
        obtain rfl : _ = c' := Option.some_injective _ hk
        refine ⟨ca, ?_, rfl, rfl, rfl⟩
        rw [hka, hax]
    · rw [if_neg hka] at hk
      exact ⟨c', hk, rfl, rfl, rfl⟩

/-- Unpairing a mutually paired pair preserves the invariant, for
replacement unpaired sets that extend the old ones with exactly the
participants of matching kind. -/
theorem StateInv.unpair_core {s : ServerState} (hs : StateInv s) (a b : String)
    (ca cb : Client)
    (ha : alookup s.clients a = some ca) (hb : alookup s.clients b = some cb)
    (hab : ca.paired_with = some b) (hba : cb.paired_with = some a)
    (R S : List String) (hR : R.Nodup) (hS : S.Nodup)
    (hRiff : ∀ i, i ∈ R ↔ i ∈ s.unpaired_robots ∨
      (i = a ∧ ca.ctype = CLIENT_TYPE_ROBOT) ∨
      (i = b ∧ cb.ctype = CLIENT_TYPE_ROBOT))
    (hSiff : ∀ i, i ∈ S ↔ i ∈ s.unpaired_spectacles ∨
      (i = a ∧ ca.ctype = CLIENT_TYPE_SPECTACLES) ∨
      (i = b ∧ cb.ctype = CLIENT_TYPE_SPECTACLES))
    (ob : List (String × OutMsg)) :
    StateInv
      { clients := unpairUpdate s.clients a b,
        unpaired_robots := R, unpaired_spectacles := S, outbox := ob } := by
  have hanr : a ∉ s.unpaired_robots := hs.not_mem_robots_of_paired ha hab
  have hans : a ∉ s.unpaired_spectacles := hs.not_mem_spectacles_of_paired ha hab
  have hbnr : b ∉ s.unpaired_robots := hs.not_mem_robots_of_paired hb hba
  have hbns : b ∉ s.unpaired_spectacles := hs.not_mem_spectacles_of_paired hb hba
  have habeq : a = b → ca = cb := by
    intro h
    rw [h] at ha
    exact Option.some_injective _ (ha.symm.trans hb)
  have hrs : ¬ CLIENT_TYPE_ROBOT = CLIENT_TYPE_SPECTACLES := by decide
  refine ⟨hR, hS, ?_, ?_, ?_, ?_, ?_, ?_, ?_⟩
  · intro i hiR hiS
    rcases (hRiff i).mp hiR with hir | ⟨hia, hcta⟩ | ⟨hib, hctb⟩
    · rcases (hSiff i).mp hiS with his | ⟨hia, _⟩ | ⟨hib, _⟩
      · exact hs.sets_disjoint i hir his
      · rw [hia] at hir
        exact hanr hir
      · rw [hib] at hir
        exact hbnr hir
    · rcases (hSiff i).mp hiS with his | ⟨_, hcta2⟩ | ⟨hib2, hctb2⟩
      · rw [hia] at his
        exact hans his
      · exact hrs (hcta.symm.trans hcta2)
      · rw [habeq (hia.symm.trans hib2)] at hcta
        exact hrs (hcta.symm.trans hctb2)
    · rcases (hSiff i).mp hiS with his | ⟨hia2, hcta2⟩ | ⟨_, hctb2⟩
      · rw [hib] at his
        exact hbns his
      · rw [← habeq (hia2.symm.trans hib)] at hctb
        exact hrs (hctb.symm.trans hcta2)
      · exact hrs (hctb.symm.trans hctb2)
  · intro k c hk
    obtain ⟨c0, hc0, hidq, _, _⟩ := alookup_unpairUpdate_shape _ a b k c hk
    rw [hidq]
    exact hs.key_id k c0 hc0
  · intro k c hk
    obtain ⟨c0, hc0, _, htyq, _⟩ := alookup_unpairUpdate_shape _ a b k c hk
    rw [htyq]
    exact hs.ctype_valid k c0 hc0
  · intro i c hi hk
    by_cases hia : i = a
    · subst hia
      rw [alookup_unpairUpdate_self_left _ i b ca cb ha hb] at hk
      obtain rfl : _ = c := Option.some_injective _ hk
      refine ⟨?_, rfl⟩
      rcases (hRiff i).mp hi with hir | ⟨_, hcta⟩ | ⟨h2, hctb⟩
      · exact absurd hir hanr
      · exact hcta
      · rw [← habeq h2] at hctb
        exact hctb
    · by_cases hib : i = b
      · subst hib
        rw [alookup_unpairUpdate_self_right _ a i ca cb ha hb] at hk
        obtain rfl : _ = c := Option.some_injective _ hk
        refine ⟨?_, rfl⟩
        rcases (hRiff i).mp hi with hir | ⟨h2, hcta⟩ | ⟨_, hctb⟩
        · exact absurd hir hbnr
        · rw [habeq h2.symm] at hcta
          exact hcta
        · exact hctb
      · rw [alookup_unpairUpdate_other _ a b i hia hib] at hk
        rcases (hRiff i).mp hi with hir | ⟨h2, _⟩ | ⟨h2, _⟩
        · exact hs.robots_ok i c hir hk
        · exact absurd h2 hia
        · exact absurd h2 hib
  · intro i c hi hk
    by_cases hia : i = a
    · subst hia
      rw [alookup_unpairUpdate_self_left _ i b ca cb ha hb] at hk
      obtain rfl : _ = c := Option.some_injective _ hk
      refine ⟨?_, rfl⟩
      rcases (hSiff i).mp hi with his | ⟨_, hcta⟩ | ⟨h2, hctb⟩
      · exact absurd his hans
      · exact hcta
      · rw [← habeq h2] at hctb
        exact hctb
    · by_cases hib : i = b
      · subst hib
        rw [alookup_unpairUpdate_self_right _ a i ca cb ha hb] at hk
        obtain rfl : _ = c := Option.some_injective _ hk
        refine ⟨?_, rfl⟩
        rcases (hSiff i).mp hi with his | ⟨h2, hcta⟩ | ⟨_, hctb⟩
        · exact absurd his hbns
        · rw [habeq h2.symm] at hcta
          exact hcta
        · exact hctb
      · rw [alookup_unpairUpdate_other _ a b i hia hib] at hk
        rcases (hSiff i).mp hi with his | ⟨h2, _⟩ | ⟨h2, _⟩
        · exact hs.spectacles_ok i c his hk
        · exact absurd h2 hia
        · exact absurd h2 hib
  · intro x y cx hx hxy
    by_cases hxa : x = a
    · subst hxa
      rw [alookup_unpairUpdate_self_left _ x b ca cb ha hb] at hx
      obtain rfl : _ = cx := Option.some_injective _ hx
      cases hxy
    · by_cases hxb : x = b
      · subst hxb
        rw [alookup_unpairUpdate_self_right _ a x ca cb ha hb] at hx
        obtain rfl : _ = cx := Option.some_injective _ hx
        cases hxy
      · rw [alookup_unpairUpdate_other _ a b x hxa hxb] at hx
        obtain ⟨cy, hcy, hyx⟩ := hs.paired_symm x y cx hx hxy
        have hya : ¬ y = a := by
          intro h
          subst h
          rw [ha] at hcy
          obtain rfl : ca = cy := Option.some_injective _ hcy
          rw [hab] at hyx
          exact hxb (Option.some_injective _ hyx).symm
        have hyb : ¬ y = b := by
          intro h
          subst h
          rw [hb] at hcy
          obtain rfl : cb = cy := Option.some_injective _ hcy
          rw [hba] at hyx
          exact hxa (Option.some_injective _ hyx).symm
        refine ⟨cy, ?_, hyx⟩
        rw [alookup_unpairUpdate_other _ a b y hya hyb]
        exact hcy
  · intro k c hk
    obtain ⟨c0, hc0, _, _, hlatq⟩ := alookup_unpairUpdate_shape _ a b k c hk
    rw [hlatq]
    exact hs.latency_bound k c0 hc0

/-- `unpair_clients` preserves the invariant when called, as at its only
call site, on a client and the peer its `paired_with` references. -/
theorem StateInv.unpair_clients_inv {s : ServerState} (hs : StateInv s)
    (a b reason : String)
    (hpair : ∀ ca, alookup s.clients a = some ca → ca.paired_with = some b) :
    StateInv (unpair_clients s a b reason) := by
  unfold unpair_clients
  cases ha : alookup s.clients a with
  | none => exact hs
  | some ca =>
    cases hb : alookup s.clients b with
    | none => exact hs
    | some cb =>
      dsimp only
      have hab : ca.paired_with = some b := hpair ca ha
      obtain ⟨cb', hcb', hba⟩ := hs.paired_symm a b ca ha hab
      obtain rfl : cb = cb' := Option.some_injective _ (hb.symm.trans hcb')
      have hida : ca.id = a := hs.key_id a ca ha
      have hidb : cb.id = b := hs.key_id b cb hb
      have hne : ¬ CLIENT_TYPE_ROBOT = CLIENT_TYPE_SPECTACLES := by decide
      have hne2 : ¬ CLIENT_TYPE_SPECTACLES = CLIENT_TYPE_ROBOT := by decide
      rw [hida, hidb]
      by_cases hc1 : ca.ctype = CLIENT_TYPE_ROBOT
      · rw [if_pos hc1]
        by_cases hc2 : cb.ctype = CLIENT_TYPE_ROBOT
        · rw [if_pos hc2]
          have hcore := hs.unpair_core a b ca cb ha hb hab hba
            (setAdd (setAdd s.unpaired_robots a) b) s.unpaired_spectacles
            (nodup_setAdd (nodup_setAdd hs.robots_nodup)) hs.spectacles_nodup
            (by
              intro i
              rw [mem_setAdd, mem_setAdd]
              simp only [hc1, hc2, and_true]
              tauto)
            (by
              intro i
              simp only [hc1, hc2, hne, and_false, or_false, false_or])
            s.outbox
          refine StateInv.transfer hcore ?_ ?_ ?_
          · rw [notify_client_unpaired_clients, notify_client_unpaired_clients]
          · rw [notify_client_unpaired_robots, notify_client_unpaired_robots]
          · rw [notify_client_unpaired_spectacles, notify_client_unpaired_spectacles]
        · rw [if_neg hc2]
          have hc2s : cb.ctype = CLIENT_TYPE_SPECTACLES := by
            rcases hs.ctype_valid b cb hb with h | h
            · exact absurd h hc2
            · exact h
          have hcore := hs.unpair_core a b ca cb ha hb hab hba
            (setAdd s.unpaired_robots a) (setAdd s.unpaired_spectacles b)
            (nodup_setAdd hs.robots_nodup) (nodup_setAdd hs.spectacles_nodup)
            (by
              intro i
              rw [mem_setAdd]
              simp only [hc1, hc2s, and_true, hne2, and_false, or_false]
              tauto)
            (by
              intro i
              rw [mem_setAdd]
              simp only [hc1, hc2s, and_true, hne, and_false, or_false, false_or]
              tauto)
            s.outbox
          refine StateInv.transfer hcore ?_ ?_ ?_
          · rw [notify_client_unpaired_clients, notify_client_unpaired_clients]
          · rw [notify_client_unpaired_robots, notify_client_unpaired_robots]
          · rw [notify_client_unpaired_spectacles, notify_client_unpaired_spectacles]
      · rw [if_neg hc1]
        have hc1s : ca.ctype = CLIENT_TYPE_SPECTACLES := by
          rcases hs.ctype_valid a ca ha with h | h
          · exact absurd h hc1
          · exact h
        by_cases hc2 : cb.ctype = CLIENT_TYPE_ROBOT
        · rw [if_pos hc2]
          have hcore := hs.unpair_core a b ca cb ha hb hab hba
            (setAdd s.unpaired_robots b) (setAdd s.unpaired_spectacles a)
            (nodup_setAdd hs.robots_nodup) (nodup_setAdd hs.spectacles_nodup)
            (by
              intro i
              rw [mem_setAdd]
              simp only [hc1s, hc2, and_true, hne2, and_false, or_false, false_or]
              tauto)
            (by
              intro i
              rw [mem_setAdd]
              simp only [hc1s, hc2, and_true, hne, and_false, or_false]
              tauto)
            s.outbox
          refine StateInv.transfer hcore ?_ ?_ ?_
          · rw [notify_client_unpaired_clients, notify_client_unpaired_clients]
          · rw [notify_client_unpaired_robots, notify_client_unpaired_robots]
          · rw [notify_client_unpaired_spectacles, notify_client_unpaired_spectacles]
        · rw [if_neg hc2]
          have hc2s : cb.ctype = CLIENT_TYPE_SPECTACLES := by
            rcases hs.ctype_valid b cb hb with h | h
            · exact absurd h hc2
            · exact h
          have hcore := hs.unpair_core a b ca cb ha hb hab hba
            s.unpaired_robots (setAdd (setAdd s.unpaired_spectacles a) b)
            hs.robots_nodup (nodup_setAdd (nodup_setAdd hs.spectacles_nodup))
            (by
              intro i
              simp only [hc1s, hc2s, hne2, and_false, or_false])
            (by
              intro i
              rw [mem_setAdd, mem_setAdd]
              simp only [hc1s, hc2s, and_true]
              tauto)
            s.outbox
          refine StateInv.transfer hcore ?_ ?_ ?_
          · rw [notify_client_unpaired_clients, notify_client_unpaired_clients]
          · rw [notify_client_unpaired_robots, notify_client_unpaired_robots]
          · rw [notify_client_unpaired_spectacles, notify_client_unpaired_spectacles]

/-- Deleting an unpaired client from the registry preserves the invariant,
for any shrunken unpaired sets. -/
theorem StateInv.remove_unpaired_core {s : ServerState} (hs : StateInv s)
    (cid : String) (client : Client)
    (hca : alookup s.clients cid = some client) (hpw : client.paired_with = none)
    (R S : List String) (hR : R.Nodup) (hS : S.Nodup)
    (hRsub : ∀ i, i ∈ R → i ∈ s.unpaired_robots)
    (hSsub : ∀ i, i ∈ S → i ∈ s.unpaired_spectacles)
    (ob : List (String × OutMsg)) :
    StateInv
      { clients := aerase s.clients cid,
        unpaired_robots := R, unpaired_spectacles := S, outbox := ob } := by
  have hlk : ∀ k, alookup (aerase s.clients cid) k =
      if k = cid then none else alookup s.clients k := fun k =>
    alookup_aerase s.clients cid k
  refine ⟨hR, hS, ?_, ?_, ?_, ?_, ?_, ?_, ?_⟩
  · intro i hiR hiS
    exact hs.sets_disjoint i (hRsub i hiR) (hSsub i hiS)
  · intro k c hk
    rw [hlk] at hk
    by_cases h : k = cid
    · rw [if_pos h] at hk
      cases hk
    · rw [if_neg h] at hk
      exact hs.key_id k c hk
  · intro k c hk
    rw [hlk] at hk
    by_cases h : k = cid
    · rw [if_pos h] at hk
      cases hk
    · rw [if_neg h] at hk
      exact hs.ctype_valid k c hk
  · intro i c hi hk
    rw [hlk] at hk
    by_cases h : i = cid
    · rw [if_pos h] at hk
      cases hk
    · rw [if_neg h] at hk
      exact hs.robots_ok i c (hRsub i hi) hk
  · intro i c hi hk
    rw [hlk] at hk
    by_cases h : i = cid
    · rw [if_pos h] at hk
      cases hk
    · rw [if_neg h] at hk
      exact hs.spectacles_ok i c (hSsub i hi) hk
  · intro x y cx hx hxy
    rw [hlk] at hx
    by_cases h : x = cid
    · rw [if_pos h] at hx
      cases hx
    · rw [if_neg h] at hx
      obtain ⟨cy, hcy, hyx⟩ := hs.paired_symm x y cx hx hxy
      have hyc : ¬ y = cid := by
        intro hy
        subst hy
        rw [hca] at hcy
        obtain rfl : client = cy := Option.some_injective _ hcy
        rw [hpw] at hyx
        cases hyx
      refine ⟨cy, ?_, hyx⟩
      rw [hlk, if_neg hyc]
      exact hcy
  · intro k c hk
    rw [hlk] at hk
    by_cases h : k = cid
    · rw [if_pos h] at hk
      cases hk
    · rw [if_neg h] at hk
      exact hs.latency_bound k c hk

/-- Removing a paired client (clearing the peer's `paired_with`, re-adding
the peer to an unpaired set, deleting the client) preserves the invariant. -/
theorem StateInv.remove_paired_core {s : ServerState} (hs : StateInv s)
    (cid pid : String) (client pc : Client)
    (hca : alookup s.clients cid = some client)
    (hpw : client.paired_with = some pid)
    (hpc : alookup s.clients pid = some pc)
    (hbp : pc.paired_with = some cid)
    (R S : List String) (hR : R.Nodup) (hS : S.Nodup)
    (hRiff : ∀ i, i ∈ R ↔ i ∈ s.unpaired_robots ∨
      (i = pid ∧ pc.ctype = CLIENT_TYPE_ROBOT))
    (hSiff : ∀ i, i ∈ S ↔ i ∈ s.unpaired_spectacles ∨
      (i = pid ∧ pc.ctype = CLIENT_TYPE_SPECTACLES))
    (ob : List (String × OutMsg)) :
    StateInv
      { clients := aerase (aupdate s.clients pid
          (fun c => { c with paired_with := none })) cid,
        unpaired_robots := R, unpaired_spectacles := S, outbox := ob } := by
  have hpnr : pid ∉ s.unpaired_robots := hs.not_mem_robots_of_paired hpc hbp
  have hpns : pid ∉ s.unpaired_spectacles := hs.not_mem_spectacles_of_paired hpc hbp
  have hrs : ¬ CLIENT_TYPE_ROBOT = CLIENT_TYPE_SPECTACLES := by decide
  have hlk : ∀ k, alookup (aerase (aupdate s.clients pid
      (fun c => { c with paired_with := none })) cid) k =
      if k = cid then none
      else if k = pid then (alookup s.clients pid).map
        (fun c => { c with paired_with := none })
      else alookup s.clients k := by
    intro k
    rw [alookup_aerase, alookup_aupdate]
  refine ⟨hR, hS, ?_, ?_, ?_, ?_, ?_, ?_, ?_⟩
  · intro i hiR hiS
    rcases (hRiff i).mp hiR with hir | ⟨hip, hctr⟩
    · rcases (hSiff i).mp hiS with his | ⟨hip, _⟩
      · exact hs.sets_disjoint i hir his
      · rw [hip] at hir
        exact hpnr hir
    · rcases (hSiff i).mp hiS with his | ⟨_, hcts⟩
      · rw [hip] at his
        exact hpns his
      · exact hrs (hctr.symm.trans hcts)
  · intro k c hk
    rw [hlk] at hk
    by_cases h : k = cid
    · rw [if_pos h] at hk
      cases hk
    · rw [if_neg h] at hk
      by_cases h2 : k = pid
      · rw [if_pos h2, hpc] at hk
        obtain rfl : _ = c := Option.some_injective _ hk
        rw [h2]
        exact hs.key_id pid pc hpc
      · rw [if_neg h2] at hk
        exact hs.key_id k c hk
  · intro k c hk
    rw [hlk] at hk
    by_cases h : k = cid
    · rw [if_pos h] at hk
      cases hk
    · rw [if_neg h] at hk
      by_cases h2 : k = pid
      · rw [if_pos h2, hpc] at hk
        obtain rfl : _ = c := Option.some_injective _ hk
        exact hs.ctype_valid pid pc hpc
      · rw [if_neg h2] at hk
        exact hs.ctype_valid k c hk
  · intro i c hi hk
    rw [hlk] at hk
    by_cases h : i = cid
    · rw [if_pos h] at hk
      cases hk
    · rw [if_neg h] at hk
      by_cases h2 : i = pid
      · rw [if_pos h2, hpc] at hk
        obtain rfl : _ = c := Option.some_injective _ hk
        refine ⟨?_, rfl⟩
        rcases (hRiff i).mp hi with hir | ⟨_, hctr⟩
        · rw [h2] at hir
          exact absurd hir hpnr
        · exact hctr
      · rw [if_neg h2] at hk
        rcases (hRiff i).mp hi with hir | ⟨hip, _⟩
        · exact hs.robots_ok i c hir hk
        · exact absurd hip h2
  · intro i c hi hk
    rw [hlk] at hk
    by_cases h : i = cid
    · rw [if_pos h] at hk
      cases hk
    · rw [if_neg h] at hk
      by_cases h2 : i = pid
      · rw [if_pos h2, hpc] at hk
        obtain rfl : _ = c := Option.some_injective _ hk
        refine ⟨?_, rfl⟩
        rcases (hSiff i).mp hi with his | ⟨_, hcts⟩
        · rw [h2] at his
          exact absurd his hpns
        · exact hcts
      · rw [if_neg h2] at hk
        rcases (hSiff i).mp hi with his | ⟨hip, _⟩
        · exact hs.spectacles_ok i c his hk
        · exact absurd hip h2
  · intro x y cx hx hxy
    rw [hlk] at hx
    by_cases h : x = cid
    · rw [if_pos h] at hx
      cases hx
    · rw [if_neg h] at hx
      by_cases h2 : x = pid
      · rw [if_pos h2, hpc] at hx
        obtain rfl : _ = cx := Option.some_injective _ hx
        cases hxy
      · rw [if_neg h2] at hx
        obtain ⟨cy, hcy, hyx⟩ := hs.paired_symm x y cx hx hxy
        have hyc : ¬ y = cid := by
          intro hy
          subst hy
          rw [hca] at hcy
          obtain rfl : client = cy := Option.some_injective _ hcy
          rw [hpw] at hyx
          exact h2 (Option.some_injective _ hyx).symm
        have hyp : ¬ y = pid := by
          intro hy
          subst hy
          rw [hpc] at hcy
          obtain rfl : pc = cy := Option.some_injective _ hcy
          rw [hbp] at hyx
          exact h (Option.some_injective _ hyx).symm
        refine ⟨cy, ?_, hyx⟩
        rw [hlk, if_neg hyc, if_neg hyp]
        exact hcy
  · intro k c hk
    rw [hlk] at hk
    by_cases h : k = cid
    · rw [if_pos h] at hk
      cases hk
    · rw [if_neg h] at hk
      by_cases h2 : k = pid
      · rw [if_pos h2, hpc] at hk
        obtain rfl : _ = c := Option.some_injective _ hk
        exact hs.latency_bound pid pc hpc
      · rw [if_neg h2] at hk
        exact hs.latency_bound k c hk

/-- `remove_client` preserves the invariant. -/
theorem StateInv.remove {s : ServerState} (hs : StateInv s) (cid : String) :
    StateInv (remove_client s cid) := by
  unfold remove_client
  cases hca : alookup s.clients cid with
  | none => exact hs
  | some client =>
    dsimp only
    cases hpw : client.paired_with with
    | none =>
      by_cases h1 : client.ctype = CLIENT_TYPE_ROBOT ∧ cid ∈ s.unpaired_robots
      · rw [if_pos h1]
        exact hs.remove_unpaired_core cid client hca hpw
          (s.unpaired_robots.erase cid) s.unpaired_spectacles
          (hs.robots_nodup.erase cid) hs.spectacles_nodup
          (fun i hi => List.mem_of_mem_erase hi) (fun i hi => hi) s.outbox
      · rw [if_neg h1]
        by_cases h2 : client.ctype = CLIENT_TYPE_SPECTACLES ∧
            cid ∈ s.unpaired_spectacles
        · rw [if_pos h2]
          exact hs.remove_unpaired_core cid client hca hpw
            s.unpaired_robots (s.unpaired_spectacles.erase cid)
            hs.robots_nodup (hs.spectacles_nodup.erase cid)
            (fun i hi => hi) (fun i hi => List.mem_of_mem_erase hi) s.outbox
        · rw [if_neg h2]
          exact hs.remove_unpaired_core cid client hca hpw
            s.unpaired_robots s.unpaired_spectacles
            hs.robots_nodup hs.spectacles_nodup
            (fun i hi => hi) (fun i hi => hi) s.outbox
    | some pid =>
      have hanr : cid ∉ s.unpaired_robots := hs.not_mem_robots_of_paired hca hpw
      have hans : cid ∉ s.unpaired_spectacles :=
        hs.not_mem_spectacles_of_paired hca hpw
      rw [if_neg (fun h => hanr h.2), if_neg (fun h => hans h.2)]
      obtain ⟨pc, hpc, hbp⟩ := hs.paired_symm cid pid client hca hpw
      dsimp only
      rw [hpc]
      dsimp only
      rw [hs.key_id pid pc hpc]
      have hne : ¬ CLIENT_TYPE_ROBOT = CLIENT_TYPE_SPECTACLES := by decide
      have hne2 : ¬ CLIENT_TYPE_SPECTACLES = CLIENT_TYPE_ROBOT := by decide
      by_cases h3 : pc.ctype = CLIENT_TYPE_ROBOT
      · rw [if_pos h3]
        have hcore := hs.remove_paired_core cid pid client pc hca hpw hpc hbp
          (setAdd s.unpaired_robots pid) s.unpaired_spectacles
          (nodup_setAdd hs.robots_nodup) hs.spectacles_nodup
          (by
            intro i
            rw [mem_setAdd]
            simp only [h3, and_true]
            tauto)
          (by
            intro i
            simp only [h3, hne, and_false, or_false])
          s.outbox
        refine StateInv.transfer hcore ?_ ?_ ?_
        · rw [notify_client_unpaired_clients]
        · rw [notify_client_unpaired_robots]
        · rw [notify_client_unpaired_spectacles]
      · rw [if_neg h3]
        have h3s : pc.ctype = CLIENT_TYPE_SPECTACLES := by
          rcases hs.ctype_valid pid pc hpc with h | h
          · exact absurd h h3
          · exact h
        have hcore := hs.remove_paired_core cid pid client pc hca hpw hpc hbp
          s.unpaired_robots (setAdd s.unpaired_spectacles pid)
          hs.robots_nodup (nodup_setAdd hs.spectacles_nodup)
          (by
            intro i
            simp only [h3s, hne2, and_false, or_false])
          (by
            intro i
            rw [mem_setAdd]
            simp only [h3s, and_true]
            tauto)
          s.outbox
        refine StateInv.transfer hcore ?_ ?_ ?_
        · rw [notify_client_unpaired_clients]
        · rw [notify_client_unpaired_robots]
        · rw [notify_client_unpaired_spectacles]

theorem capPush_le (l : List ℚ) (x : ℚ) (h : l.length ≤ 50) :
    (capPush l x).length ≤ 50 := by
  unfold capPush
  dsimp only
  split
  · rename_i hlen
    rw [List.length_tail, List.length_append]
    simp
    omega
  · rename_i hlen
    rw [List.length_append] at hlen ⊢
    simp at hlen ⊢
    omega

/-- The TEXT-frame handler preserves the invariant. -/
theorem StateInv.handle_text {s : ServerState} (hs : StateInv s) (cid : String)
    (raw : Option JValue) (now : ℚ) : StateInv (handleText s cid raw now).1 := by
  unfold handleText
  cases raw with
  | none => exact hs
  | some data =>
    cases hca : alookup s.clients cid with
    | none => exact hs
    | some c0 =>
      dsimp only
      have hs1 := hs.update_benign cid
        (fun c => Client.log_message
          { c with messages_received := c.messages_received + 1 }
          (LogContent.json data) "in" "json" now)
        (fun c => rfl) (fun c => rfl) (fun c => rfl) (fun c h => h)
      split
      · exact hs1
      · rename_i client hclient
        split
        · rename_i fields
          split
          · split
            · split
              · rename_i q hq
                exact hs1.update_benign cid _ (fun c => rfl) (fun c => rfl)
                  (fun c => rfl) (fun c h => capPush_le c.latency_history (now - q) h)
              · exact hs1
            · exact hs1
          · split
            · split
              · rename_i pid hpid
                refine hs1.unpair_clients_inv cid pid "Client requested to unpair" ?_
                intro ca hca'
                rw [hclient] at hca'
                obtain rfl : client = ca := Option.some_injective _ hca'
                exact hpid
              · exact hs1
            · split
              · rename_i pid hpid
                split
                · rename_i paired_client hpaired
                  split
                  · refine StateInv.transfer (hs1.update_benign pid
                      (fun c => { (Client.log_message c (LogContent.json
                        (JValue.obj (aset (aset fields "relayed" (JValue.bool true))
                          "source_client" (JValue.str cid)))) "out" "json" now) with
                        messages_sent := c.messages_sent + 1 })
                      (fun c => rfl) (fun c => rfl) (fun c => rfl) (fun c h => h))
                      ?_ ?_ ?_ <;> rfl
                  · exact hs1
                · exact hs1
              · exact hs1
        · exact hs1

/-- The BINARY-frame handler preserves the invariant. -/
theorem StateInv.handle_binary {s : ServerState} (hs : StateInv s) (cid : String)
    (data : List Nat) (now : ℚ) : StateInv (handleBinary s cid data now) := by
  unfold handleBinary
  cases hca : alookup s.clients cid with
  | none => exact hs
  | some c0 =>
    dsimp only
    have hs1 := hs.update_benign cid
      (fun c => Client.log_message
        { c with messages_received := c.messages_received + 1 }
        (LogContent.bytes data) "in" "bytes" now)
      (fun c => rfl) (fun c => rfl) (fun c => rfl) (fun c h => h)
    split
    · exact hs1
    · rename_i client hclient
      split
      · rename_i pid hpid
        split
        · rename_i paired_client hpaired
          split
          · refine StateInv.transfer (hs1.update_benign pid
              (fun c => Client.log_message
                { c with messages_sent := c.messages_sent + 1 }
                (LogContent.bytes data) "out" "bytes" now)
              (fun c => rfl) (fun c => rfl) (fun c => rfl) (fun c h => h))
              ?_ ?_ ?_ <;> rfl
          · exact hs1
        · exact hs1
      · exact hs1

/-- The latency probe preserves the invariant. -/
theorem StateInv.ping_client {s : ServerState} (hs : StateInv s) (cid : String)
    (now : ℚ) : StateInv (pingClient s cid now) := by
  unfold pingClient
  cases hca : alookup s.clients cid with
  | none => exact hs
  | some client =>
    dsimp only
    split
    · refine StateInv.transfer (hs.update_benign cid
        (fun c => { c with last_ping_time := now })
        (fun c => rfl) (fun c => rfl) (fun c => rfl) (fun c h => h)) ?_ ?_ ?_ <;> rfl
    · exact hs

/-- `close_connection_handler` preserves the invariant. -/
theorem StateInv.close_connection {s : ServerState} (hs : StateInv s)
    (cid : String) : StateInv (close_connection_handler s cid).1 := by
  unfold close_connection_handler
  cases hca : alookup s.clients cid with
  | none => exact hs
  | some client =>
    dsimp only
    have hcore := hs.update_benign cid (fun c => { c with ws_open := false })
      (fun c => rfl) (fun c => rfl) (fun c => rfl) (fun c h => h)
    have hbr : ∀ s2 : ServerState, s2.clients = s.clients →
        s2.unpaired_robots = s.unpaired_robots →
        s2.unpaired_spectacles = s.unpaired_spectacles →
        StateInv (remove_client { s2 with clients := aupdate s2.clients cid (fun c => { c with ws_open := false }) } cid) := by
      intro s2 hc hr hsp
      refine StateInv.remove (StateInv.transfer hcore ?_ ?_ ?_) cid
      · rw [hc]
      · exact hr
      · exact hsp
    refine hbr _ ?_ ?_ ?_ <;>
      · repeat' split
        all_goals simp [notify_client_unpaired_clients,
          notify_client_unpaired_robots, notify_client_unpaired_spectacles]

/-- Every reachable server state satisfies the registry invariant. -/
theorem reachable_inv {s : ServerState} (h : Reachable s) : StateInv s := by
  induction h with
  | init =>
    refine ⟨List.nodup_nil, List.nodup_nil, ?_, ?_, ?_, ?_, ?_, ?_, ?_⟩
    · intro i hi
      cases hi
    · intro k c hk
      cases hk
    · intro k c hk
      cases hk
    · intro i c hi
      cases hi
    · intro i c hi
      cases hi
    · intro a b ca ha
      cases ha
    · intro k c hk
      cases hk
  | register s h t addr fresh now ht hf ih => exact ih.register t addr fresh now ht hf
  | opportunisticPair s h rid sid hr hsp ih => exact ih.pair_selected rid sid hr hsp
  | forcePair s h cid pw ih => exact ih.force_pair cid pw
  | textFrame s h cid raw now ih => exact ih.handle_text cid raw now
  | binaryFrame s h cid data now ih => exact ih.handle_binary cid data now
  | disconnect s h cid ih => exact ih.remove cid
  | adminClose s h cid ih => exact ih.close_connection cid
  | probe s h cid now ih => exact ih.ping_client cid now

/-! ### Demonstration states -/

/-- A robot and a spectacles client, freshly registered (not yet paired). -/
def demoRegistered : ServerState :=
  registerClient
    (registerClient ServerState.initial CLIENT_TYPE_ROBOT "10.0.0.1" "r1" 0)
    CLIENT_TYPE_SPECTACLES "10.0.0.2" "s1" 1

/-- The demonstration state after opportunistic pairing of `r1` and `s1`. -/
def demoPaired : ServerState := (pairSelected demoRegistered "r1" "s1").1

theorem demoRegistered_reachable : Reachable demoRegistered :=
  Reachable.register _
    (Reachable.register _ Reachable.init CLIENT_TYPE_ROBOT "10.0.0.1" "r1" 0
      (Or.inl rfl) ⟨rfl, by decide, by decide⟩)
    CLIENT_TYPE_SPECTACLES "10.0.0.2" "s1" 1 (Or.inr rfl)
    ⟨rfl, by decide, by decide⟩

theorem demoPaired_reachable : Reachable demoPaired :=
  Reachable.opportunisticPair _ demoRegistered_reachable "r1" "s1"
    (by decide) (by decide)

/-! ### C1 -/

/-- Boolean observation: the live connection `a` currently records `b` as
its `paired_with` peer. -/
def pairedToB (s : ServerState) (a b : String) : Bool :=
  match alookup s.clients a with
  | some c => c.paired_with == some b
  | none => false

/-- C1: for every reachable server state (closed under connect, identify,
opportunistic-pair, force-pair, unpair, and disconnect operations), the
pairing relation is symmetric: whenever connection `a`'s `paired_with` is
`b`, connection `b` is live and its `paired_with` is `a` — no reachable
state has only one side of a pair set. -/
theorem reachable_pairing_symmetric (s : ServerState) (h : Reachable s)
    (a b : String) (hab : pairedToB s a b = true) : pairedToB s b a = true := by
  have hs := reachable_inv h
  unfold pairedToB at hab ⊢
  cases hca : alookup s.clients a with
  | none =>
    rw [hca] at hab
    cases hab
  | some ca =>
    rw [hca] at hab
    dsimp only at hab
    have hpw : ca.paired_with = some b := by
      exact beq_iff_eq.mp hab
    obtain ⟨cb, hcb, hba⟩ := hs.paired_symm a b ca hca hpw
    rw [hcb]
    dsimp only
    rw [hba]
    simp

/-- Witness for C1 at a concrete reachable paired state. -/
theorem reachable_pairing_symmetric_witness :
    pairedToB demoPaired "s1" "r1" = true :=
  reachable_pairing_symmetric demoPaired demoPaired_reachable "r1" "s1" (by rfl)

/-! ### C2 -/

/-- C2: in every reachable state a connection id is in at most one of the
two unpaired sets, and a live connection whose `paired_with` is set is in
neither set. -/
theorem reachable_unpaired_sets_consistent (s : ServerState) (h : Reachable s)
    (i : String) :
    (i ∈ s.unpaired_robots → i ∉ s.unpaired_spectacles) ∧
    (∀ c b, alookup s.clients i = some c → c.paired_with = some b →
      i ∉ s.unpaired_robots ∧ i ∉ s.unpaired_spectacles) := by
  have hs := reachable_inv h
  constructor
  · exact hs.sets_disjoint i
  · intro c b hc hb
    exact ⟨hs.not_mem_robots_of_paired hc hb, hs.not_mem_spectacles_of_paired hc hb⟩

/-- Witness for C2: in the concrete two-client state, the waiting robot id
is not in the spectacles pool. -/
theorem reachable_unpaired_sets_consistent_witness :
    "r1" ∉ demoRegistered.unpaired_spectacles :=
  (reachable_unpaired_sets_consistent demoRegistered demoRegistered_reachable
    "r1").1 (by decide)

/-! ### C3 -/

/-- A state with a single registered robot `a`. -/
def demoSolo : ServerState :=
  registerClient ServerState.initial CLIENT_TYPE_ROBOT "10.0.0.1" "a" 0

/-- Counterexample to C3 as stated: with `a` registered and `b` absent,
forced pairing of `a` with `b` is rejected as an invalid pairing selection
(`HTTPBadRequest`), not as `NotFound` — the handler raises `NotFound` only
for the first id. -/
theorem force_pair_second_absent_is_bad_request :
    (force_pair_handler demoSolo "a" (some "b")).2 =
      ForcePairResult.invalid_pairing ∧
    ¬ (force_pair_handler demoSolo "a" (some "b")).2 =
      ForcePairResult.not_found := by
  constructor
  · rfl
  · decide

/-- C3 (amended): forced pairing fails with `NotFound` exactly when the
first (URL) id is absent; a missing, empty, or unknown `pair_with` id is
rejected as an invalid pairing selection; an `AlreadyPaired` rejection
fires when either connection has `paired_with` set; and every failing
request leaves the whole server state unchanged. -/
theorem force_pair_failure_modes (s : ServerState) (cid : String)
    (pw : Option String) :
    (alookup s.clients cid = none →
      force_pair_handler s cid pw = (s, ForcePairResult.not_found)) ∧
    (∀ c, alookup s.clients cid = some c →
      (pw = none ∨ pw = some "" ∨
        (∃ p, pw = some p ∧ ¬ p = "" ∧ alookup s.clients p = none)) →
      force_pair_handler s cid pw = (s, ForcePairResult.invalid_pairing)) ∧
    (∀ c p pc, alookup s.clients cid = some c → pw = some p → ¬ p = "" →
      alookup s.clients p = some pc → c.is_paired = true →
      force_pair_handler s cid pw = (s, ForcePairResult.client_already_paired)) ∧
    (∀ c p pc, alookup s.clients cid = some c → pw = some p → ¬ p = "" →
      alookup s.clients p = some pc → c.is_paired = false →
      pc.is_paired = true →
      force_pair_handler s cid pw = (s, ForcePairResult.target_already_paired)) ∧
    (¬ (force_pair_handler s cid pw).2 = ForcePairResult.ok →
      (force_pair_handler s cid pw).1 = s) := by
  refine ⟨?_, ?_, ?_, ?_, ?_⟩
  · intro h
    unfold force_pair_handler
    rw [h]
  · intro c hc hbad
    unfold force_pair_handler
    rw [hc]
    dsimp only
    rcases hbad with rfl | rfl | ⟨p, rfl, hne, hnone⟩
    · rfl
    · dsimp only
      rw [if_pos rfl]
    · dsimp only
      rw [if_neg hne, hnone]
  · intro c p pc hc hp hne hpc hps
    subst hp
    unfold force_pair_handler
    rw [hc]
    dsimp only
    rw [if_neg hne, hpc]
    dsimp only
    rw [if_pos hps]
  · intro c p pc hc hp hne hpc hcu hps
    subst hp
    unfold force_pair_handler
    rw [hc]
    dsimp only
    rw [if_neg hne, hpc]
    dsimp only
    rw [if_neg (by rw [hcu]; decide), if_pos hps]
  · unfold force_pair_handler
    cases hc : alookup s.clients cid with
    | none =>
      intro _
      rfl
    | some c =>
      cases pw with
      | none =>
        intro _
        rfl
      | some p =>
        dsimp only
        by_cases hne : p = ""
        · rw [if_pos hne]
          intro _
          rfl
        · rw [if_neg hne]
          cases hpc : alookup s.clients p with
          | none =>
            intro _
            rfl
          | some pc =>
            dsimp only
            by_cases h1 : c.is_paired
            · rw [if_pos h1]
              intro _
              rfl
            · rw [if_neg h1]
              by_cases h2 : pc.is_paired
              · rw [if_pos h2]
                intro _
                rfl
              · rw [if_neg h2]
                intro hok
                exact absurd rfl hok

/-- Witness for the amended C3 at concrete states: an unknown first id is
`NotFound`, an unknown second id is the invalid-pairing rejection, and a
request rejected because the target is paired changes nothing. -/
theorem force_pair_failure_modes_witness :
    force_pair_handler demoSolo "zz" none = (demoSolo, ForcePairResult.not_found) ∧
    force_pair_handler demoSolo "a" (some "b") =
      (demoSolo, ForcePairResult.invalid_pairing) ∧
    (force_pair_handler demoPaired "r1" (some "s1")).1 = demoPaired :=
  ⟨(force_pair_failure_modes demoSolo "zz" none).1 rfl,
   (force_pair_failure_modes demoSolo "a" (some "b")).2.1
     (Client.init "a" CLIENT_TYPE_ROBOT "10.0.0.1" 0) rfl
     (Or.inr (Or.inr ⟨"b", rfl, by decide, rfl⟩)),
   (force_pair_failure_modes demoPaired "r1" (some "s1")).2.2.2.2 (by decide)⟩

/-! ### C6 -/

/-- C6: a connection with an empty latency window reports the
distinguished no-data value and never a numeric mean (in particular not
zero); a connection with a non-empty window reports the arithmetic mean of
the current samples. -/
theorem avg_latency_reporting (c : Client) :
    (c.latency_history = [] →
      c.avg_latency_report = LatencyReport.noData ∧
      ∀ q : ℚ, ¬ c.avg_latency_report = LatencyReport.mean q) ∧
    (¬ c.latency_history = [] →
      c.avg_latency_report = LatencyReport.mean
        (c.latency_history.sum / (c.latency_history.length : ℚ))) := by
  constructor
  · intro h
    constructor
    · unfold Client.avg_latency_report
      rw [if_pos h]
    · intro q hq
      unfold Client.avg_latency_report at hq
      rw [if_pos h] at hq
      cases hq
  · intro h
    unfold Client.avg_latency_report Client.avg_latency
    rw [if_neg h, if_neg h]

/-- A client with no latency samples and one with samples 10 and 20 ms. -/
def demoClientEmpty : Client := Client.init "e" CLIENT_TYPE_ROBOT "addr" 0

def demoClientSamples : Client :=
  { Client.init "f" CLIENT_TYPE_ROBOT "addr" 0 with latency_history := [10, 20] }

/-- Witness for C6 at concrete clients. -/
theorem avg_latency_reporting_witness :
    demoClientEmpty.avg_latency_report = LatencyReport.noData ∧
    demoClientSamples.avg_latency_report =
      LatencyReport.mean (demoClientSamples.latency_history.sum /
        (demoClientSamples.latency_history.length : ℚ)) :=
  ⟨((avg_latency_reporting demoClientEmpty).1 rfl).1,
   (avg_latency_reporting demoClientSamples).2 (by decide)⟩

/-! ### C7 -/

/-- C7: when the first inbound frame does not identify as a JSON object
with field `type` equal to `robot` or `spectacles` (missing frame,
non-object, missing field, non-string or other value), the transport is
closed, no `Client` is created, and the whole server state — registry and
both unpaired sets included — is exactly unchanged. -/
theorem invalid_identification_no_state (s : ServerState) (raw : Option JValue)
    (addr fresh : String) (now : ℚ) (hbad : identKind raw = none) :
    identifyStep s raw addr fresh now = (s, false) := by
  unfold identifyStep
  rw [hbad]

/-- Witness for C7: an unknown kind string leaves the demonstration state
untouched. -/
theorem invalid_identification_no_state_witness :
    identifyStep demoRegistered
      (some (JValue.obj [("type", JValue.str "drone")])) "10.9.9.9" "x7" 4 =
      (demoRegistered, false) :=
  invalid_identification_no_state demoRegistered _ "10.9.9.9" "x7" 4 (by decide)

/-! ### C4 -/

theorem alookup_aset_self {α : Type} (l : List (String × α)) (key : String)
    (v : α) : alookup (aset l key v) key = some v := by
  induction l with
  | nil => simp [aset, alookup]
  | cons p t ih =>
    obtain ⟨a, w⟩ := p
    by_cases h : a = key
    · subst h
      simp [aset, alookup]
    · simp [aset, alookup, h, ih]

theorem alookup_aset_other {α : Type} (l : List (String × α)) (key k : String)
    (v : α) (hk : ¬ k = key) : alookup (aset l key v) k = alookup l k := by
  have hk2 : ¬ key = k := fun h => hk h.symm
  induction l with
  | nil => simp [aset, alookup, hk2]
  | cons p t ih =>
    obtain ⟨a, w⟩ := p
    by_cases h : a = key
    · subst h
      simp [aset, alookup, hk2]
    · simp [aset, alookup, h, ih]

/-- C4: a structured frame from a paired sender whose `type` is neither
`pong` nor `unpair`, processed while the peer socket is open, is delivered
to the peer as the same JSON object with exactly two fields added or
overwritten — `relayed = true` and `source_client = <sender id>` — and
every other field preserved. -/
theorem relay_adds_exactly_provenance (s : ServerState) (cid pid : String)
    (c pc : Client) (fields : List (String × JValue)) (now : ℚ)
    (hc : alookup s.clients cid = some c) (hpw : c.paired_with = some pid)
    (hpc : alookup s.clients pid = some pc) (hid : pc.id = pid)
    (hopen : pc.ws_open = true) (hne : ¬ pid = cid)
    (hnpong : jIsStr (alookup fields "type") "pong" = false)
    (hnunpair : jIsStr (alookup fields "type") "unpair" = false) :
    (handleText s cid (some (JValue.obj fields)) now).1.outbox =
      s.outbox ++ [(pid, OutMsg.relayed_json (JValue.obj
        (aset (aset fields "relayed" (JValue.bool true)) "source_client"
          (JValue.str cid))))] ∧
    alookup (aset (aset fields "relayed" (JValue.bool true)) "source_client"
      (JValue.str cid)) "relayed" = some (JValue.bool true) ∧
    alookup (aset (aset fields "relayed" (JValue.bool true)) "source_client"
      (JValue.str cid)) "source_client" = some (JValue.str cid) ∧
    (∀ k, ¬ k = "relayed" → ¬ k = "source_client" →
      alookup (aset (aset fields "relayed" (JValue.bool true)) "source_client"
        (JValue.str cid)) k = alookup fields k) := by
  refine ⟨?_, ?_, ?_, ?_⟩
  · unfold handleText
    rw [hc]
    dsimp only
    split
    · rename_i hnone
      rw [alookup_aupdate, if_pos rfl, hc] at hnone
      cases hnone
    · rename_i client hclient
      rw [alookup_aupdate, if_pos rfl, hc] at hclient
      obtain rfl : _ = client := Option.some_injective _ hclient
      rw [if_neg (by rw [hnpong]; decide), if_neg (by rw [hnunpair]; decide)]
      have hcpw : (Client.log_message
          { c with messages_received := c.messages_received + 1 }
          (LogContent.json (JValue.obj fields)) "in" "json" now).paired_with =
          some pid := hpw
      rw [hcpw]
      dsimp only
      have hlp : alookup (aupdate s.clients cid
          (fun c2 => Client.log_message
            { c2 with messages_received := c2.messages_received + 1 }
            (LogContent.json (JValue.obj fields)) "in" "json" now)) pid =
          some pc := by
        rw [alookup_aupdate, if_neg hne]
        exact hpc
      rw [hlp]
      dsimp only
      rw [if_pos hopen, hid]
  · rw [alookup_aset_other _ "source_client" "relayed" _ (by decide)]
    exact alookup_aset_self fields "relayed" (JValue.bool true)
  · exact alookup_aset_self _ "source_client" (JValue.str cid)
  · intro k hk1 hk2
    rw [alookup_aset_other _ "source_client" k _ hk2]
    exact alookup_aset_other fields "relayed" k _ hk1

/-- Witness for C4: the frame `{"foo": 1}` sent by `r1` in the paired
demonstration state is delivered to `s1` as
`{"foo": 1, "relayed": true, "source_client": "r1"}`. -/
theorem relay_adds_exactly_provenance_witness :
    (handleText demoPaired "r1" (some (JValue.obj [("foo", JValue.num 1)]))
      5).1.outbox =
      demoPaired.outbox ++ [("s1", OutMsg.relayed_json (JValue.obj
        [("foo", JValue.num 1), ("relayed", JValue.bool true),
         ("source_client", JValue.str "r1")]))] :=
  (relay_adds_exactly_provenance demoPaired "r1" "s1"
    { Client.init "r1" CLIENT_TYPE_ROBOT "10.0.0.1" 0 with
      paired_with := some "s1" }
    { Client.init "s1" CLIENT_TYPE_SPECTACLES "10.0.0.2" 1 with
      paired_with := some "r1" }
    [("foo", JValue.num 1)] 5 rfl rfl rfl rfl rfl (by decide) rfl rfl).1

/-! ### C5 -/

/-- A pong acknowledgement frame echoing probe timestamp `t`. -/
def pongFrame (t : ℚ) : JValue :=
  JValue.obj [("type", JValue.str "pong"), ("ping_timestamp", JValue.num t)]

/-- Processing a sequence of pong acknowledgements from `cid`; each entry
is (receipt time, echoed probe timestamp). -/
def processPongs (s : ServerState) (cid : String) (ps : List (ℚ × ℚ)) :
    ServerState :=
  ps.foldl (fun s' p => (handleText s' cid (some (pongFrame p.2)) p.1).1) s

theorem handleText_pong_latency (s : ServerState) (cid : String) (c : Client)
    (t now : ℚ) (hc : alookup s.clients cid = some c) (ht : ¬ t = 0) :
    ∃ c', alookup (handleText s cid (some (pongFrame t)) now).1.clients cid =
        some c' ∧
      c'.latency_history = capPush c.latency_history (now - t) := by
  unfold handleText pongFrame
  rw [hc]
  dsimp only
  split
  · rename_i hnone
    rw [alookup_aupdate, if_pos rfl, hc] at hnone
    cases hnone
  · rename_i client hclient
    rw [alookup_aupdate, if_pos rfl, hc] at hclient
    obtain rfl : _ = client := Option.some_injective _ hclient
    rw [if_pos (show jIsStr (alookup [("type", JValue.str "pong"),
      ("ping_timestamp", JValue.num t)] "type") "pong" = true from rfl)]
    rw [if_pos (show jTruthy ((alookup [("type", JValue.str "pong"),
      ("ping_timestamp", JValue.num t)] "ping_timestamp").getD (JValue.num 0)) =
        true from by
      show (!(t == 0)) = true
      simpa using ht)]
    split
    · rename_i q hq
      have hqt : some t = some q := (show jNum ((alookup [("type",
        JValue.str "pong"), ("ping_timestamp", JValue.num t)]
          "ping_timestamp").getD (JValue.num 0)) = some t from rfl).symm.trans hq
      obtain rfl : t = q := Option.some_injective _ hqt
      refine ⟨{ (Client.log_message { c with messages_received := c.messages_received + 1 } (LogContent.json (JValue.obj [("type", JValue.str "pong"), ("ping_timestamp", JValue.num t)])) "in" "json" now) with latency_history := capPush c.latency_history (now - t) }, ?_, rfl⟩
      rw [alookup_aupdate, if_pos rfl, alookup_aupdate, if_pos rfl, hc]
      rfl
    · rename_i hnone
      rw [show jNum ((alookup [("type", JValue.str "pong"),
        ("ping_timestamp", JValue.num t)] "ping_timestamp").getD
          (JValue.num 0)) = some t from rfl] at hnone
      cases hnone

theorem processPongs_latency (s : ServerState) (cid : String) (c : Client)
    (ps : List (ℚ × ℚ)) (hc : alookup s.clients cid = some c)
    (hts : ∀ p ∈ ps, ¬ p.2 = 0) :
    ∃ c', alookup (processPongs s cid ps).clients cid = some c' ∧
      c'.latency_history = ps.foldl (fun l p => capPush l (p.1 - p.2))
        c.latency_history := by
  induction ps generalizing s c with
  | nil => exact ⟨c, hc, rfl⟩
  | cons p rest ih =>
    obtain ⟨c1, hc1, hl1⟩ := handleText_pong_latency s cid c p.2 p.1 hc
      (hts p (List.mem_cons_self _ _))
    obtain ⟨c', hc', hl'⟩ := ih _ c1 hc1
      (fun q hq => hts q (List.mem_cons_of_mem _ hq))
    refine ⟨c', hc', ?_⟩
    rw [hl', hl1]
    rfl

theorem foldl_capPush_drop (xs : List ℚ) : ∀ l : List ℚ, l.length ≤ 50 →
    List.foldl capPush l xs = (l ++ xs).drop ((l ++ xs).length - 50) := by
  induction xs with
  | nil =>
    intro l h
    have h0 : l.length - 50 = 0 := by omega
    simp [h0]
  | cons x rest ih =>
    intro l h
    rw [List.foldl_cons, ih (capPush l x) (capPush_le l x h)]
    unfold capPush
    dsimp only
    by_cases hlen : 50 < (l ++ [x]).length
    · rw [if_pos hlen]
      have hl : l.length = 50 := by
        rw [List.length_append] at hlen
        simp at hlen
        omega
      have hA : (l ++ [x]).length = 51 := by
        rw [List.length_append]
        simp [hl]
      rw [← List.drop_one]
      rw [← List.drop_append_of_le_length (by rw [hA]; omega)]
      rw [List.drop_drop]
      have e3 : (l ++ [x]) ++ rest = l ++ x :: rest := by
        rw [List.append_assoc]
        rfl
      rw [e3]
      congr 1
      rw [List.length_drop, List.length_append, List.length_cons]
      omega
    · rw [if_neg hlen]
      have e3 : (l ++ [x]) ++ rest = l ++ x :: rest := by
        rw [List.append_assoc]
        rfl
      rw [e3]

/-- C5: in every reachable state no latency window exceeds 50 samples, and
processing 51 consecutive pong acknowledgements (each echoing a non-zero
probe timestamp) on an empty window leaves exactly the last 50 round-trip
samples — the sample produced by the first pong is evicted first. -/
theorem latency_window_fifo :
    (∀ s, Reachable s → ∀ k c, alookup s.clients k = some c →
      c.latency_history.length ≤ 50) ∧
    (∀ s cid c (ps : List (ℚ × ℚ)), alookup s.clients cid = some c →
      c.latency_history = [] → ps.length = 51 → (∀ p ∈ ps, ¬ p.2 = 0) →
      ∃ c', alookup (processPongs s cid ps).clients cid = some c' ∧
        c'.latency_history = (ps.map (fun p => p.1 - p.2)).tail ∧
        c'.latency_history.length = 50) := by
  constructor
  · intro s h k c hk
    exact (reachable_inv h).latency_bound k c hk
  · intro s cid c ps hc hemp hlen hts
    obtain ⟨c', hc', hl⟩ := processPongs_latency s cid c ps hc hts
    have hfin : c'.latency_history = (ps.map (fun p => p.1 - p.2)).tail := by
      rw [hl, hemp]
      rw [← List.foldl_map (fun p : ℚ × ℚ => p.1 - p.2) capPush]
      rw [foldl_capPush_drop _ [] (by simp)]
      simp [hlen]
    refine ⟨c', hc', hfin, ?_⟩
    rw [hfin]
    simp [hlen]

/-- Witness for C5: the reachable paired state obeys the bound, and a
concrete burst of 51 pongs on the empty window of `r1` leaves 50 samples
with the first evicted. -/
theorem latency_window_fifo_witness :
    ({ Client.init "r1" CLIENT_TYPE_ROBOT "10.0.0.1" 0 with
        paired_with := some "s1" } : Client).latency_history.length ≤ 50 ∧
    ∃ c', alookup (processPongs demoPaired "r1"
        (List.replicate 51 ((0 : ℚ), (1 : ℚ)))).clients "r1" = some c' ∧
      c'.latency_history = ((List.replicate 51 ((0 : ℚ), (1 : ℚ))).map
        (fun p => p.1 - p.2)).tail ∧
      c'.latency_history.length = 50 :=
  ⟨latency_window_fifo.1 demoPaired demoPaired_reachable "r1" _ rfl,
   latency_window_fifo.2 demoPaired "r1"
    { Client.init "r1" CLIENT_TYPE_ROBOT "10.0.0.1" 0 with
      paired_with := some "s1" }
    (List.replicate 51 (0, 1)) rfl rfl (by simp)
    (by
      intro p hp
      rw [List.eq_of_mem_replicate hp]
      decide)⟩

/-! ### C8 -/

/-- C8: when a paired connection's transport closes, `remove_client`
deletes it from the registry and both unpaired sets, clears the surviving
peer's `paired_with`, re-inserts the survivor into the unpaired set of its
kind (making it eligible again for opportunistic pairing), and sends the
survivor a `status_update` with status `waiting`. -/
theorem peer_disconnect_recovers_survivor (s : ServerState) (cid pid : String)
    (c pc : Client)
    (hc : alookup s.clients cid = some c) (hpw : c.paired_with = some pid)
    (hpc : alookup s.clients pid = some pc) (hid : pc.id = pid)
    (hne : ¬ pid = cid) (hopen : pc.ws_open = true)
    (hcr : cid ∉ s.unpaired_robots) (hcs : cid ∉ s.unpaired_spectacles) :
    alookup (remove_client s cid).clients cid = none ∧
    cid ∉ (remove_client s cid).unpaired_robots ∧
    cid ∉ (remove_client s cid).unpaired_spectacles ∧
    alookup (remove_client s cid).clients pid =
      some { pc with paired_with := none } ∧
    (if pc.ctype = CLIENT_TYPE_ROBOT then
        pid ∈ (remove_client s cid).unpaired_robots
      else pid ∈ (remove_client s cid).unpaired_spectacles) ∧
    (remove_client s cid).outbox = s.outbox ++
      [(pid, OutMsg.status_update STATUS_WAITING
        "The paired client has disconnected" (some pid) none none)] := by
  unfold remove_client
  rw [hc]
  dsimp only
  rw [if_neg (fun h => hcr h.2), if_neg (fun h => hcs h.2)]
  rw [hpw]
  dsimp only
  rw [hpc]
  dsimp only
  unfold notify_client_unpaired
  dsimp only
  rw [hid]
  rw [if_pos hopen]
  by_cases h3 : pc.ctype = CLIENT_TYPE_ROBOT
  · rw [if_pos h3]
    refine ⟨?_, ?_, ?_, ?_, ?_, ?_⟩
    · rw [alookup_aerase, if_pos rfl]
    · intro hmem
      rcases mem_setAdd.mp hmem with h | h
      · exact hne h.symm
      · exact hcr h
    · exact hcs
    · rw [alookup_aerase, if_neg hne, alookup_aupdate, if_pos rfl, hpc, ← hid]
      rfl
    · rw [if_pos h3]
      exact mem_setAdd.mpr (Or.inl rfl)
    · rfl
  · rw [if_neg h3]
    refine ⟨?_, ?_, ?_, ?_, ?_, ?_⟩
    · rw [alookup_aerase, if_pos rfl]
    · exact hcr
    · intro hmem
      rcases mem_setAdd.mp hmem with h | h
      · exact hne h.symm
      · exact hcs h
    · rw [alookup_aerase, if_neg hne, alookup_aupdate, if_pos rfl, hpc, ← hid]
      rfl
    · rw [if_neg h3]
      exact mem_setAdd.mpr (Or.inl rfl)
    · rfl

/-- Witness for C8: disconnecting `s1` in the paired demonstration state
removes it, returns `r1` to the robots pool, and notifies `r1` with a
`waiting` status update. -/
theorem peer_disconnect_recovers_survivor_witness :
    "r1" ∈ (remove_client demoPaired "s1").unpaired_robots ∧
    (remove_client demoPaired "s1").outbox = demoPaired.outbox ++
      [("r1", OutMsg.status_update STATUS_WAITING
        "The paired client has disconnected" (some "r1") none none)] := by
  have h := peer_disconnect_recovers_survivor demoPaired "s1" "r1"
    { Client.init "s1" CLIENT_TYPE_SPECTACLES "10.0.0.2" 1 with
      paired_with := some "r1" }
    { Client.init "r1" CLIENT_TYPE_ROBOT "10.0.0.1" 0 with
      paired_with := some "s1" }
    rfl rfl rfl rfl (by decide) rfl (by decide) (by decide)
  exact ⟨by simpa using h.2.2.2.2.1, h.2.2.2.2.2⟩

/-! ### C9 -/

/-- Does this outbox entry carry a `waiting` status notification (the
unpair notification shape) addressed to `target`? -/
def isWaitingNote (target : String) (m : String × OutMsg) : Bool :=
  m.1 == target &&
    match m.2 with
    | OutMsg.status_update st _ _ _ _ => st == STATUS_WAITING
    | _ => false

/-- A mutually paired robot `a` and spectacles `b` with open sockets. -/
def demoClientA : Client :=
  { Client.init "a" CLIENT_TYPE_ROBOT "ra" 0 with paired_with := some "b" }

def demoClientB : Client :=
  { Client.init "b" CLIENT_TYPE_SPECTACLES "rb" 0 with paired_with := some "a" }

def demoC9 : ServerState :=
  { clients := [("a", demoClientA), ("b", demoClientB)],
    unpaired_robots := [], unpaired_spectacles := [], outbox := [] }

/-- Counterexample to C9 as stated: administratively closing the paired
connection `a` sends its peer `b` two `waiting` status notifications (one
from the close handler, a second from the removal it performs), not
exactly one. -/
theorem admin_close_double_notifies :
    (((close_connection_handler demoC9 "a").1.outbox.filter
      (isWaitingNote "b")).length = 2) ∧
    ¬ (((close_connection_handler demoC9 "a").1.outbox.filter
      (isWaitingNote "b")).length = 1) := by
  constructor
  · rfl
  · decide

/-- C9 (amended): removal of a connection is idempotent (a second removal
of the same id is a no-op), the disconnect path sends the surviving peer
exactly one `waiting` notification and leaves the survivor exactly once in
the unpaired sets, but an administrative close of a paired connection
sends the survivor two `waiting` notifications — one from the close
handler and a second from the removal it performs. -/
theorem close_notification_accounting (s : ServerState) (cid pid : String)
    (c pc : Client)
    (hc : alookup s.clients cid = some c) (hpw : c.paired_with = some pid)
    (hpc : alookup s.clients pid = some pc) (hid : pc.id = pid)
    (hne : ¬ pid = cid) (hopen : pc.ws_open = true) (hcopen : c.ws_open = true)
    (hcr : cid ∉ s.unpaired_robots) (hcs : cid ∉ s.unpaired_spectacles)
    (hpr : pid ∉ s.unpaired_robots) (hps : pid ∉ s.unpaired_spectacles)
    (hob : ∀ m ∈ s.outbox, isWaitingNote pid m = false) :
    (∀ s2 cid2, remove_client (remove_client s2 cid2) cid2 =
      remove_client s2 cid2) ∧
    ((remove_client s cid).outbox.filter (isWaitingNote pid)).length = 1 ∧
    (remove_client s cid).unpaired_robots.count pid +
      (remove_client s cid).unpaired_spectacles.count pid = 1 ∧
    ((close_connection_handler s cid).1.outbox.filter
      (isWaitingNote pid)).length = 2 := by
  have key : ∀ t : ServerState, ∀ i, alookup t.clients i = none →
      remove_client t i = t := by
    intro t i ht
    unfold remove_client
    rw [ht]
  have hnil : s.outbox.filter (isWaitingNote pid) = [] :=
    List.filter_eq_nil_iff.mpr (fun m hm => by simp [hob m hm])
  have hyes : isWaitingNote pid (pid, OutMsg.status_update STATUS_WAITING
      "The paired client has disconnected" (some pid) none none) = true := by
    simp [isWaitingNote, STATUS_WAITING]
  have hyes2 : isWaitingNote pid (pid, OutMsg.status_update STATUS_WAITING
      "The paired client was closed by the server" (some pid) none none) =
      true := by
    simp [isWaitingNote, STATUS_WAITING]
  have hno : ∀ target, isWaitingNote pid (target, OutMsg.status_update
      STATUS_DISCONNECTED "Connection closed by server" none none none) =
      false := by
    intro target
    simp [isWaitingNote, STATUS_DISCONNECTED, STATUS_WAITING]
  refine ⟨?_, ?_, ?_, ?_⟩
  · intro s2 cid2
    cases hc2 : alookup s2.clients cid2 with
    | none =>
      rw [key s2 cid2 hc2, key s2 cid2 hc2]
    | some c2 =>
      refine key _ cid2 ?_
      unfold remove_client
      rw [hc2]
      dsimp only
      rw [alookup_aerase, if_pos rfl]
  · unfold remove_client
    rw [hc]
    dsimp only
    rw [if_neg (fun h => hcr h.2), if_neg (fun h => hcs h.2)]
    rw [hpw]
    dsimp only
    rw [hpc]
    dsimp only
    unfold notify_client_unpaired
    dsimp only
    rw [hid, if_pos hopen]
    by_cases h3 : pc.ctype = CLIENT_TYPE_ROBOT
    · rw [if_pos h3]
      dsimp only
      rw [List.filter_append, hnil]
      simp [hyes]
    · rw [if_neg h3]
      dsimp only
      rw [List.filter_append, hnil]
      simp [hyes]
  · unfold remove_client
    rw [hc]
    dsimp only
    rw [if_neg (fun h => hcr h.2), if_neg (fun h => hcs h.2)]
    rw [hpw]
    dsimp only
    rw [hpc]
    dsimp only
    unfold notify_client_unpaired
    dsimp only
    rw [hid, if_pos hopen]
    by_cases h3 : pc.ctype = CLIENT_TYPE_ROBOT
    · rw [if_pos h3]
      dsimp only
      rw [count_setAdd_self hpr, List.count_eq_zero_of_not_mem hps]
    · rw [if_neg h3]
      dsimp only
      rw [count_setAdd_self hps, List.count_eq_zero_of_not_mem hpr]
  · unfold close_connection_handler
    rw [hc]
    dsimp only
    rw [hpw]
    dsimp only
    rw [hpc]
    dsimp only
    unfold notify_client_unpaired
    dsimp only
    rw [hid, if_pos hopen, if_pos hcopen]
    unfold remove_client
    dsimp only
    rw [show alookup (aupdate s.clients cid
      (fun c2 => { c2 with ws_open := false })) cid =
        some { c with ws_open := false } from by
      rw [alookup_aupdate, if_pos rfl, hc]
      rfl]
    dsimp only
    rw [if_neg (fun h => hcr h.2), if_neg (fun h => hcs h.2)]
    rw [show ({ c with ws_open := false } : Client).paired_with = some pid
      from hpw]
    dsimp only
    rw [show alookup (aupdate s.clients cid
      (fun c2 => { c2 with ws_open := false })) pid = some pc from by
      rw [alookup_aupdate, if_neg hne]
      exact hpc]
    dsimp only
    unfold notify_client_unpaired
    dsimp only
    rw [hid, if_pos hopen]
    by_cases h3 : pc.ctype = CLIENT_TYPE_ROBOT
    · rw [if_pos h3]
      dsimp only
      rw [List.filter_append, List.filter_append, List.filter_append, hnil]
      simp [hyes, hyes2, hno]
    · rw [if_neg h3]
      dsimp only
      rw [List.filter_append, List.filter_append, List.filter_append, hnil]
      simp [hyes, hyes2, hno]

/-- Witness for the amended C9 at the concrete paired state. -/
theorem close_notification_accounting_witness :
    remove_client (remove_client demoC9 "a") "a" = remove_client demoC9 "a" ∧
    ((remove_client demoC9 "a").outbox.filter (isWaitingNote "b")).length = 1 ∧
    ((close_connection_handler demoC9 "a").1.outbox.filter
      (isWaitingNote "b")).length = 2 := by
  have h := close_notification_accounting demoC9 "a" "b" demoClientA demoClientB
    rfl rfl rfl rfl (by decide) rfl rfl (by decide) (by decide) (by decide)
    (by decide) (by intro m hm; cases hm)
  exact ⟨h.1 demoC9 "a", h.2.1, h.2.2.2⟩

/-! ### C10 -/

/-- The sender's registry entry after a successful `unpair_clients` call:
`paired_with` is cleared, nothing else on the record changes. -/
theorem unpair_clients_lookup_first (s : ServerState) (a b reason : String)
    (ca cb : Client) (ha : alookup s.clients a = some ca)
    (hb : alookup s.clients b = some cb) :
    alookup (unpair_clients s a b reason).clients a =
      some { ca with paired_with := none } := by
  unfold unpair_clients
  rw [ha, hb]
  dsimp only
  unfold notify_client_unpaired
  dsimp only
  repeat' split
  all_goals exact alookup_unpairUpdate_self_left s.clients a b ca cb ha hb

/-- The registered solo robot `a`, force-paired with itself: the handler
checks neither id inequality nor, past `is_paired`, anything that would
reject `pair_with == client_id`. -/
def demoSelf : ServerState := (force_pair_handler demoSolo "a" (some "a")).1

/-- Counterexample to C10 as stated: forced self-pairing succeeds, and a
subsequent inbound JSON frame from `a` appends TWO records to `a`'s own
message log (the `in` record of receipt and the `out` record of the relay
back to itself), not exactly one. -/
theorem self_pair_double_log_append :
    (force_pair_handler demoSolo "a" (some "a")).2 = ForcePairResult.ok ∧
    ((alookup demoSelf.clients "a").map
      (fun c2 => c2.message_log.length)) = some 0 ∧
    ((alookup (handleText demoSelf "a"
        (some (JValue.obj [("x", JValue.num 1)])) 7).1.clients "a").map
      (fun c2 => c2.message_log.length)) = some 2 ∧
    ¬ ((alookup (handleText demoSelf "a"
        (some (JValue.obj [("x", JValue.num 1)])) 7).1.clients "a").map
      (fun c2 => c2.message_log.length)) = some 1 := by
  refine ⟨rfl, rfl, rfl, ?_⟩
  intro h
  rw [show ((alookup (handleText demoSelf "a"
      (some (JValue.obj [("x", JValue.num 1)])) 7).1.clients "a").map
      (fun c2 => c2.message_log.length)) = some 2 from rfl] at h
  cases h

/-- C10 (amended): for every identified connection that is not
(degenerately) force-paired with itself, an inbound JSON text frame bumps
the sender's `messages_received` by exactly one and performs exactly one
capped append on the sender's message log — the `in` record of the frame —
regardless of dispatch (pong, unpair, relay, drop, or malformed
structure); a frame that is not valid JSON changes nothing at all. -/
theorem inbound_json_counts_and_logs (s : ServerState) (cid : String)
    (c : Client) (data : JValue) (now : ℚ)
    (hc : alookup s.clients cid = some c)
    (hself : ¬ c.paired_with = some cid) :
    ((alookup (handleText s cid (some data) now).1.clients cid).map
        (fun c2 => (c2.messages_received, c2.message_log))) =
      some (c.messages_received + 1,
        pushLog c.message_log c.max_log_size
          { timestamp := now, direction := "in",
            content := LogContent.json data, kind := "json" }) ∧
    handleText s cid none now = (s, false) := by
  refine ⟨?_, rfl⟩
  unfold handleText
  rw [hc]
  dsimp only
  have hl1 : alookup (aupdate s.clients cid
      (fun c2 => Client.log_message
        { c2 with messages_received := c2.messages_received + 1 }
        (LogContent.json data) "in" "json" now)) cid =
      some (Client.log_message
        { c with messages_received := c.messages_received + 1 }
        (LogContent.json data) "in" "json" now) := by
    rw [alookup_aupdate, if_pos rfl, hc]
    rfl
  split
  · rename_i hnone
    rw [hl1] at hnone
    cases hnone
  · rename_i client hclient
    rw [hl1] at hclient
    obtain rfl : _ = client := Option.some_injective _ hclient
    split
    · rename_i fields
      split
      · split
        · split
          · rename_i q hq
            dsimp only
            rw [alookup_aupdate, if_pos rfl, hl1]
            rfl
          · rw [hl1]
            rfl
        · rw [hl1]
          rfl
      · split
        · split
          · rename_i pid hpid
            cases hpb : alookup (aupdate s.clients cid
                (fun c2 => Client.log_message
                  { c2 with messages_received := c2.messages_received + 1 }
                  (LogContent.json (JValue.obj fields)) "in" "json" now)) pid with
            | none =>
              unfold unpair_clients
              dsimp only
              rw [hl1, hpb]
              dsimp only
              rw [hl1]
              rfl
            | some cb =>
              rw [unpair_clients_lookup_first _ cid pid _ _ cb hl1 hpb]
              rfl
          · rw [hl1]
            rfl
        · split
          · rename_i pid hpid
            have hpidne : ¬ cid = pid := by
              intro h
              apply hself
              rw [h]
              exact hpid
            split
            · rename_i paired_client hpaired
              split
              · dsimp only
                rw [alookup_aupdate, if_neg hpidne, hl1]
                rfl
              · rw [hl1]
                rfl
            · rw [hl1]
              rfl
          · rw [hl1]
            rfl
    · rw [hl1]
      rfl

/-- Witness for the amended C10 at the concrete paired state: an inbound
JSON frame from `r1` leaves it with one received message and exactly the
one `in` log record, and an invalid frame changes nothing. -/
theorem inbound_json_counts_and_logs_witness :
    ((alookup (handleText demoPaired "r1"
        (some (JValue.obj [("k", JValue.num 2)])) 9).1.clients "r1").map
      (fun c2 => (c2.messages_received, c2.message_log))) =
      some (1, [({ timestamp := 9, direction := "in", content := LogContent.json (JValue.obj [("k", JValue.num 2)]), kind := "json" } : LogRecord)]) ∧
    handleText demoPaired "r1" none 9 = (demoPaired, false) := by
  have h := inbound_json_counts_and_logs demoPaired "r1"
    { Client.init "r1" CLIENT_TYPE_ROBOT "10.0.0.1" 0 with
      paired_with := some "s1" } (JValue.obj [("k", JValue.num 2)]) 9
    rfl (by decide)
  exact ⟨h.1, h.2⟩
